import Mathlib

/-!
# Verification of the heading-extraction core (adobe-1a-cpp)

Shallow embedding of the post-detection pipeline of the repository:
`yolo_inference.cpp` (decoder, NMS, fallback layout), `text_corrector.cpp`
(literal substitution pass), `heading_classifier.cpp` (rule cascade) and
`pdf_processor.cpp` (table heuristic, overlap filter, per-page pipeline).

Modelling conventions:
* C++ `std::string` is modelled as `List Char`; the byte length of the
  UTF-8 representation (what `std::string::length()` returns) is `byteLen`.
  Character classification (`isspace`, `isalpha`, ...) follows the C locale,
  i.e. is ASCII-only, which matches glibc behaviour on the byte level.
* `float`/`double` arithmetic is modelled over `ℚ`.  The single place where
  IEEE special values matter — the NMS quotient `intersection / union` when
  the union is `0`, which is NaN in C++ and compares false against every
  threshold — is embedded by an explicit `union ≠ 0` guard on the
  suppression test.
* `int` casts of floating values (`static_cast<int>`) truncate toward zero,
  modelled by `truncQ`.
-/

namespace Adobe1a

/-! ## C-locale character helpers -/

/-- The C locale's `isspace` set: space, `\t`, `\n`, `\v`, `\f`, `\r`. -/
def isWs (c : Char) : Bool :=
  c = ' ' || c = '\t' || c = '\n' || c = '\x0b' || c = '\x0c' || c = '\r'

def isAsciiUpper (c : Char) : Bool := 'A' ≤ c && c ≤ 'Z'

def isAsciiLower (c : Char) : Bool := 'a' ≤ c && c ≤ 'z'

def isAsciiAlpha (c : Char) : Bool := isAsciiUpper c || isAsciiLower c

def isAsciiDigit (c : Char) : Bool := '0' ≤ c && c ≤ '9'

/-- ECMAScript `\w` (used for `\b` word boundaries): letters, digits, `_`. -/
def isWordChar (c : Char) : Bool := isAsciiAlpha c || isAsciiDigit c || c = '_'

/-- `::tolower` in the C locale: lower `A`–`Z`, leave everything else. -/
def toLowerChar (c : Char) : Char :=
  if isAsciiUpper c then Char.ofNat (c.toNat + 32) else c

/-- `to_lower` (heading_classifier.cpp / std::transform with ::tolower). -/
def toLowerStr (l : List Char) : List Char := l.map toLowerChar

/-- `std::string::length()`: number of BYTES of the UTF-8 representation. -/
def byteLen (l : List Char) : Nat := (l.map Char.utf8Size).sum

/-- `std::count(text.begin(), text.end(), c)` — byte count; for the
characters counted by the classifier (ASCII) this equals the char count. -/
def countChar (c : Char) (l : List Char) : Nat := l.count c

/-- Head is a whitespace byte (false on the empty string). -/
def headWs (l : List Char) : Bool :=
  match l with
  | [] => false
  | c :: _ => isWs c

/-! ## Text corrector (`text_corrector.cpp`)

`apply_basic_fixes` iterates the correction table; for each rule it
find-and-replaces all non-overlapping literal occurrences left to right,
resuming after the end of the inserted replacement
(`pos += fix.second.length()`); afterwards it collapses whitespace runs
(`std::regex_replace(result, std::regex("\\s+"), " ")`) and trims both ends.

The C++ table is a `std::unordered_map`, whose iteration order the language
does not specify; the embedding fixes the order in which the source text
lists the rules (`initialize_corrections`), which is also the order the
specification's words "ordered mapping" describe. -/

/-- One find-and-replace sweep: leftmost occurrences, scanning resumes after
the replacement.  Structural recursion on a fuel counter; with a non-empty
key, fuel `s.length` is never exhausted before the list is. -/
def replaceAllGo (key rep : List Char) : Nat → List Char → List Char
  | 0, s => s
  | _ + 1, [] => []
  | f + 1, c :: cs =>
    if key.isPrefixOf (c :: cs) then
      rep ++ replaceAllGo key rep f ((c :: cs).drop key.length)
    else
      c :: replaceAllGo key rep f cs

/-- `while ((pos = result.find(fix.first, pos)) != npos) { replace; pos += … }`.
Every key in the source's correction table is non-empty. -/
def replaceAll (key rep s : List Char) : List Char :=
  replaceAllGo key rep s.length s

/-- One-pass form of `std::regex_replace(result, std::regex("\\s+"), " ")`:
a space is emitted at the first whitespace byte of a run (`prevWs = false`)
and the rest of the run is skipped, so every maximal whitespace run becomes
a single space. -/
def collapseWsAux (prevWs : Bool) : List Char → List Char
  | [] => []
  | c :: cs =>
    if isWs c then
      (if prevWs then collapseWsAux true cs else ' ' :: collapseWsAux true cs)
    else c :: collapseWsAux false cs

def collapseWs (l : List Char) : List Char := collapseWsAux false l

/-- Erase leading whitespace (the `find_if`/`erase` at the head). -/
def trimLeft (l : List Char) : List Char := l.dropWhile isWs

/-- Erase trailing whitespace (the reverse `find_if`/`erase` at the tail). -/
def trimRight (l : List Char) : List Char := (l.reverse.dropWhile isWs).reverse

def trimWs (l : List Char) : List Char := trimRight (trimLeft l)

/-- The ASCII apostrophe (byte 39), as a one-character string. -/
def apos : String := (Char.ofNat 39).toString

/-- The built-in literal correction table of `initialize_corrections`
(text_corrector.cpp), in the order the source lists it.  Duplicate keys
occur in the source listing (e.g. `"vvork"`, `"vvith"`, `"lntroduction"`);
they are kept as listed — a later duplicate never finds an occurrence left
by the earlier one, so sequential application coincides with the
deduplicated table. -/
def basicFixesStr : List (String × String) :=
  [ -- Common OCR character substitutions
    ("rn", "m"), ("vv", "w"), ("ii", "ll"), ("oo", "co"), ("cl", "d"),
    ("0", "O"), ("1", "l"), ("5", "S"), ("8", "B"), ("6", "G"),
    ("l", "I"), ("o", "0"), ("S", "5"), ("B", "8"), ("G", "6"),
    -- More OCR character confusions
    ("rri", "m"), ("nn", "n"), ("ur", "n"), ("ni", "m"), ("iu", "n"),
    ("fi", "h"), ("li", "h"), ("ti", "h"), ("ri", "n"), ("rr", "n"),
    ("cc", "c"), ("ee", "e"), ("tt", "t"), ("pp", "p"), ("bb", "b"),
    ("dd", "d"), ("gg", "g"), ("ff", "f"), ("ss", "s"), ("zz", "z"),
    -- Letter-number confusions
    ("0ne", "one"), ("1ike", "like"), ("5ame", "same"), ("8est", "best"),
    ("6ood", "good"), ("1eft", "left"), ("r1ght", "right"), ("w0rd", "word"),
    ("numb3r", "number"), ("t1me", "time"), ("p1ace", "place"), ("0ther", "other"),
    ("1arge", "large"), ("5mall", "small"), ("w0rk", "work"), ("st0p", "stop"),
    -- Common OCR word confusions
    ("tlie", "the"), ("tlle", "the"), ("t11e", "the"), ("t1le", "the"),
    ("anci", "and"), ("anct", "and"), ("ancl", "and"), ("arid", "and"),
    ("witli", "with"), ("witll", "with"), ("w1th", "with"), ("wi1h", "with"),
    ("tliat", "that"), ("t11at", "that"), ("tl1at", "that"), ("tllet", "that"),
    ("wlien", "when"), ("w11en", "when"), ("wl1en", "when"), ("wheri", "when"),
    ("wliere", "where"), ("w11ere", "where"), ("wl1ere", "where"), ("wllere", "where"),
    ("wliat", "what"), ("w11at", "what"), ("wl1at", "what"), ("wllat", "what"),
    ("wliy", "why"), ("w11y", "why"), ("wl1y", "why"), ("whv", "why"),
    ("liow", "how"), ("l1ow", "how"), ("ll0w", "how"), ("h0w", "how"),
    ("wlio", "who"), ("w11o", "who"), ("wl1o", "who"), ("wh0", "who"),
    -- Punctuation OCR errors (the source's quote rules are the ASCII
    -- apostrophe/double-quote mapped to themselves)
    (".", ","), (",", "."), (";", ":"), (":", ";"),
    (apos, apos), (apos, apos), ("\"", "\""), ("\"", "\""),
    ("—", "-"), ("–", "-"), ("…", "..."), (apos, apos),
    -- Capital letter OCR errors
    ("Tlie", "The"), ("Anci", "And"), ("Witli", "With"), ("Tliat", "That"),
    ("Wlien", "When"), ("Wliere", "Where"), ("Wliat", "What"), ("Wliy", "Why"),
    ("Liow", "How"), ("Wlio", "Who"), ("Tliis", "This"), ("Tliey", "They"),
    ("Tliese", "These"), ("Tliose", "Those"), ("Tlirough", "Through"),
    ("Tliree", "Three"), ("Tliirty", "Thirty"), ("Tliink", "Think"),
    -- Word-level corrections (from Python implementation)
    ("rnatch", "match"), ("vvork", "work"), ("cornpany", "company"),
    ("rnoney", "money"), ("rnanage", "manage"), ("rnarket", "market"),
    ("tilie", "title"), ("nieet", "meet"), ("rnust", "must"),
    ("vvill", "will"), ("vvith", "with"), ("vvhen", "when"),
    ("vvhere", "where"), ("vvhat", "what"), ("vvhy", "why"),
    ("rnight", "might"), ("rnore", "more"), ("rnark", "mark"),
    -- More comprehensive word fixes
    ("rnake", "make"), ("rnany", "many"), ("rnain", "main"), ("rnale", "male"),
    ("rnail", "mail"), ("rnap", "map"), ("rnass", "mass"), ("rnaster", "master"),
    ("rnatter", "matter"), ("rnax", "max"), ("rnay", "may"), ("rnean", "mean"),
    ("rneasure", "measure"), ("rneet", "meet"), ("rnember", "member"),
    ("rnention", "mention"), ("rnethod", "method"), ("rniddle", "middle"),
    ("rnile", "mile"), ("rnillion", "million"), ("rnind", "mind"),
    ("rnine", "mine"), ("rninus", "minus"), ("rniss", "miss"),
    ("rnix", "mix"), ("rnodel", "model"), ("rnoder", "modern"),
    ("rnorning", "morning"), ("rnost", "most"), ("rnother", "mother"),
    ("rnotion", "motion"), ("rnount", "mount"), ("rnouse", "mouse"),
    ("rnove", "move"), ("rnuch", "much"), ("rnusic", "music"),
    -- V-W confusions
    ("vvant", "want"), ("vvar", "war"), ("vvarm", "warm"), ("vvash", "wash"),
    ("vvaste", "waste"), ("vvatch", "watch"), ("vvater", "water"),
    ("vvave", "wave"), ("vvay", "way"), ("vve", "we"), ("vveak", "weak"),
    ("vvear", "wear"), ("vveather", "weather"), ("vveb", "web"),
    ("vveek", "week"), ("vveight", "weight"), ("vvelcome", "welcome"),
    ("vvell", "well"), ("vvest", "west"), ("vvet", "wet"),
    ("vvhite", "white"), ("vvhole", "whole"), ("vvide", "wide"),
    ("vvin", "win"), ("vvind", "wind"), ("vvindow", "window"),
    ("vvinter", "winter"), ("vvise", "wise"), ("vvith", "with"),
    ("vvoman", "woman"), ("vvomen", "women"), ("vvon", "won"),
    ("vvood", "wood"), ("vvord", "word"), ("vvork", "work"),
    ("vvorld", "world"), ("vvorry", "worry"), ("vvorth", "worth"),
    ("vvould", "would"), ("vvrite", "write"), ("vvrong", "wrong"),
    -- Technical terms
    ("Aadile", "Agile"), ("aadile", "agile"),
    ("Testina", "Testing"), ("testina", "testing"),
    ("Entrv", "Entry"), ("entrv", "entry"),
    ("lntroduction", "Introduction"), ("lntroduction", "introduction"),
    ("Reguirements", "Requirements"), ("reguirements", "requirements"),
    ("Develooment", "Development"), ("develooment", "development"),
    ("Manaaement", "Management"), ("manaaement", "management"),
    ("Orqanization", "Organization"), ("orqanization", "organization"),
    ("Backaround", "Background"), ("backaround", "background"),
    ("Technoloaical", "Technological"), ("technoloaical", "technological"),
    -- More technical OCR errors
    ("Prograrnming", "Programming"), ("prograrnming", "programming"),
    ("Softvvare", "Software"), ("softvvare", "software"),
    ("Cornputer", "Computer"), ("cornputer", "computer"),
    ("Systern", "System"), ("systern", "system"),
    ("Netvvork", "Network"), ("netvvork", "network"),
    ("Databa5e", "Database"), ("databa5e", "database"),
    ("Algorlthm", "Algorithm"), ("algorlthm", "algorithm"),
    ("Functlon", "Function"), ("functlon", "function"),
    ("Varlable", "Variable"), ("varlable", "variable"),
    ("Strlng", "String"), ("strlng", "string"),
    ("Objecť", "Object"), ("objecť", "object"),
    ("Cla55", "Class"), ("cla55", "class"),
    ("Methocl", "Method"), ("methocl", "method"),
    ("lnterface", "Interface"), ("lnterface", "interface"),
    ("Modulé", "Module"), ("modulé", "module"),
    -- Common spelling mistakes
    ("recieve", "receive"), ("seperate", "separate"), ("occured", "occurred"),
    ("definately", "definitely"), ("managment", "management"),
    ("enviroment", "environment"), ("accomodate", "accommodate"),
    ("begining", "beginning"), ("beleive", "believe"), ("occassion", "occasion"),
    ("profesional", "professional"), ("recomend", "recommend"),
    ("neccessary", "necessary"), ("accross", "across"), ("untill", "until"),
    ("thier", "their"), ("freind", "friend"), ("sence", "sense"),
    ("calender", "calendar"), ("buisness", "business"), ("succesful", "successful"),
    ("tomorow", "tomorrow"), ("febuary", "february"), ("wenesday", "wednesday"),
    ("wieght", "weight"), ("heigth", "height"), ("lenght", "length"),
    ("knowlege", "knowledge"), ("priviledge", "privilege"), ("embarass", "embarrass"),
    -- Document-specific terms
    ("qgovernance", "governance"), ("governance", "governance"),
    ("decision-makina", "decision-making"), ("fundina", "funding"),
    ("reallv", "really"), ("librarv", "library"), ("fullv", "fully"),
    ("aovernment", "government"), ("tc", "to"), ("Strateqy", "Strategy"),
    ("policv", "policy"), ("analvsis", "analysis"), ("researcli", "research"),
    ("studv", "study"), ("reportina", "reporting"), ("meetina", "meeting"),
    ("plannina", "planning"), ("budaet", "budget"), ("proiect", "project"),
    -- Punctuation fixes
    ("timeline-", "Timeline:"), ("summary-", "Summary:"),
    ("background-", "Background:"), ("guidance-", "Guidance:"),
    ("overview-", "Overview:"), ("conclusion-", "Conclusion:"),
    ("introduction-", "Introduction:"), ("methodology-", "Methodology:"),
    ("results-", "Results:"), ("discussion-", "Discussion:")]

def basicFixes : List (List Char × List Char) :=
  basicFixesStr.map (fun p => (p.1.data, p.2.data))

/-- The loop `for (const auto& fix : basic_fixes_) { … }`. -/
def runRules (rules : List (List Char × List Char)) (s : List Char) : List Char :=
  rules.foldl (fun acc kv => replaceAll kv.1 kv.2 acc) s

/-- `apply_basic_fixes` (text_corrector.cpp): the sequential literal
substitutions, then whitespace collapsing, then the two-sided trim. -/
def applyBasicFixes (s : List Char) : List Char :=
  trimWs (collapseWs (runRules basicFixes s))

/-- Splitting the rule fold, used to evaluate the table in stages. -/
theorem runRules_split (n : Nat) (rules : List (List Char × List Char))
    (s : List Char) :
    runRules rules s = runRules (rules.drop n) (runRules (rules.take n) s) := by
  rw [runRules, runRules, runRules, ← List.foldl_append, List.take_append_drop]

/-- `correct_text` with the default configuration (`aggressive_mode_ = false`,
which is what the per-page pipeline constructs): the early return on the
empty string, then the basic fixes.  The aggressive regex pass is gated off
by the default flag and not exercised by the pipeline. -/
def correctText (s : List Char) : List Char :=
  if s = [] then s else applyBasicFixes s

/-- No two adjacent whitespace bytes. -/
def noAdjWs : List Char → Bool
  | [] => true
  | c :: cs => (!(isWs c && headWs cs)) && noAdjWs cs

/-- Whitespace-normal form: no leading or trailing whitespace, no run of
two or more whitespace bytes, and every whitespace byte is a plain space. -/
def wsClean (l : List Char) : Prop :=
  headWs l = false ∧ headWs l.reverse = false ∧ noAdjWs l = true ∧
    ∀ c ∈ l, isWs c = true → c = ' '

theorem headWs_collapseWsAux_true (l : List Char) :
    headWs (collapseWsAux true l) = false := by
  induction l with
  | nil => rfl
  | cons c cs ih =>
    by_cases h : isWs c = true
    · simpa [collapseWsAux, h] using ih
    · simp [collapseWsAux, h, headWs]

theorem noAdjWs_collapseWsAux (l : List Char) (p : Bool) :
    noAdjWs (collapseWsAux p l) = true := by
  induction l generalizing p with
  | nil => rfl
  | cons c cs ih =>
    by_cases h : isWs c = true
    · cases p with
      | true => simpa [collapseWsAux, h] using ih true
      | false =>
        simp [collapseWsAux, h, noAdjWs, headWs_collapseWsAux_true, ih true]
    · simp [collapseWsAux, h, noAdjWs, ih false]

theorem mem_collapseWsAux_ws (l : List Char) (p : Bool) (c : Char)
    (hm : c ∈ collapseWsAux p l) (hw : isWs c = true) : c = ' ' := by
  induction l generalizing p with
  | nil => simp [collapseWsAux] at hm
  | cons a cs ih =>
    by_cases h : isWs a = true
    · cases p with
      | true =>
        simp only [collapseWsAux, h, if_true] at hm
        exact ih true hm
      | false =>
        rw [show collapseWsAux false (a :: cs) = ' ' :: collapseWsAux true cs from by
          simp [collapseWsAux, h]] at hm
        rcases List.mem_cons.mp hm with rfl | hm
        · rfl
        · exact ih true hm
    · rw [show collapseWsAux p (a :: cs) = a :: collapseWsAux false cs from by
        simp [collapseWsAux, h]] at hm
      rcases List.mem_cons.mp hm with rfl | hm
      · exact absurd hw (by simpa using h)
      · exact ih false hm

theorem headWs_dropWhile_isWs (l : List Char) :
    headWs (l.dropWhile isWs) = false := by
  induction l with
  | nil => rfl
  | cons c cs ih =>
    by_cases h : isWs c = true
    · simpa [List.dropWhile, h] using ih
    · simp [List.dropWhile, h, headWs]

theorem noAdjWs_dropWhile_isWs (l : List Char) (h : noAdjWs l = true) :
    noAdjWs (l.dropWhile isWs) = true := by
  induction l with
  | nil => exact h
  | cons c cs ih =>
    simp only [noAdjWs, Bool.and_eq_true] at h
    by_cases hc : isWs c = true
    · simpa [List.dropWhile, hc] using ih h.2
    · simpa [List.dropWhile, hc, noAdjWs] using h

theorem headWs_of_isPrefix {p l : List Char} (hp : p <+: l)
    (h : headWs l = false) : headWs p = false := by
  cases p with
  | nil => rfl
  | cons a q =>
    rcases hp with ⟨t, ht⟩
    cases l with
    | nil => simp at ht
    | cons b m =>
      have : a = b := by
        have := congrArg (fun x => x.head?) ht
        simpa using this
      subst this
      exact h

theorem noAdjWs_of_isPrefix {p l : List Char} (hp : p <+: l)
    (h : noAdjWs l = true) : noAdjWs p = true := by
  induction p generalizing l with
  | nil => rfl
  | cons a q ih =>
    cases l with
    | nil => exact absurd (List.IsPrefix.length_le hp) (by simp)
    | cons b m =>
      have hab : a = b := by
        rcases hp with ⟨t, ht⟩
        have := congrArg (fun x => x.head?) ht
        simpa using this
      subst hab
      have hq : q <+: m := (List.prefix_cons_inj a).mp hp
      simp only [noAdjWs, Bool.and_eq_true] at h ⊢
      refine ⟨?_, ih hq h.2⟩
      rcases h with ⟨h1, _⟩
      cases q with
      | nil => simp [headWs]
      | cons x r =>
        cases m with
        | nil => exact absurd (List.IsPrefix.length_le hq) (by simp)
        | cons y s =>
          have : x = y := by
            rcases hq with ⟨t, ht⟩
            have := congrArg (fun z => z.head?) ht
            simpa using this
          subst this
          exact h1

theorem trimRight_isPrefix (l : List Char) : trimRight l <+: l := by
  have h1 : l.reverse.dropWhile isWs <:+ l.reverse := List.dropWhile_suffix _
  have h2 : (l.reverse.dropWhile isWs).reverse <+: l.reverse.reverse :=
    List.reverse_prefix.mpr h1
  simpa [trimRight] using h2

/-- Evaluating the 325-rule fold in stages of 40 keeps each kernel
reduction shallow. -/
theorem basicFixes_run (s v0 v1 v2 v3 v4 v5 v6 v7 v8 : List Char)
    (h0 : runRules (basicFixes.take 40) s = v0)
    (h1 : runRules ((basicFixes.drop 40).take 40) v0 = v1)
    (h2 : runRules ((basicFixes.drop 80).take 40) v1 = v2)
    (h3 : runRules ((basicFixes.drop 120).take 40) v2 = v3)
    (h4 : runRules ((basicFixes.drop 160).take 40) v3 = v4)
    (h5 : runRules ((basicFixes.drop 200).take 40) v4 = v5)
    (h6 : runRules ((basicFixes.drop 240).take 40) v5 = v6)
    (h7 : runRules ((basicFixes.drop 280).take 40) v6 = v7)
    (h8 : runRules (basicFixes.drop 320) v7 = v8) :
    runRules basicFixes s = v8 := by
  have e1 : (basicFixes.drop 40).drop 40 = basicFixes.drop 80 := by
    rw [List.drop_drop]
  have e2 : (basicFixes.drop 80).drop 40 = basicFixes.drop 120 := by
    rw [List.drop_drop]
  have e3 : (basicFixes.drop 120).drop 40 = basicFixes.drop 160 := by
    rw [List.drop_drop]
  have e4 : (basicFixes.drop 160).drop 40 = basicFixes.drop 200 := by
    rw [List.drop_drop]
  have e5 : (basicFixes.drop 200).drop 40 = basicFixes.drop 240 := by
    rw [List.drop_drop]
  have e6 : (basicFixes.drop 240).drop 40 = basicFixes.drop 280 := by
    rw [List.drop_drop]
  have e7 : (basicFixes.drop 280).drop 40 = basicFixes.drop 320 := by
    rw [List.drop_drop]
  rw [runRules_split 40 basicFixes, h0,
      runRules_split 40 (basicFixes.drop 40), h1, e1,
      runRules_split 40 (basicFixes.drop 80), h2, e2,
      runRules_split 40 (basicFixes.drop 120), h3, e3,
      runRules_split 40 (basicFixes.drop 160), h4, e4,
      runRules_split 40 (basicFixes.drop 200), h5, e5,
      runRules_split 40 (basicFixes.drop 240), h6, e6,
      runRules_split 40 (basicFixes.drop 280), h7, e7, h8]

set_option maxRecDepth 4000 in
theorem runRules_rnatch :
    runRules basicFixes "rnatch this vvork".data = "matoh this work".data := by
  apply basicFixes_run _ "match this w0rk".data "match this work".data
      "match this work".data "match this work".data "match this work".data
      "match this work".data "match this work".data "matoh this work".data
      "matoh this work".data
  all_goals decide

set_option maxRecDepth 4000 in
theorem runRules_matoh :
    runRules basicFixes "matoh this work".data = "mat0h this work".data := by
  apply basicFixes_run _ "mat0h this w0rk".data "mat0h this work".data
      "mat0h this work".data "mat0h this work".data "mat0h this work".data
      "mat0h this work".data "mat0h this work".data "mat0h this work".data
      "mat0h this work".data
  all_goals decide

set_option maxRecDepth 4000 in
theorem runRules_execSummary :
    runRules basicFixes "Executive Summary".data = "Execuhve 5ummary".data := by
  apply basicFixes_run _ "Execuhve 5ummary".data "Execuhve 5ummary".data
      "Execuhve 5ummary".data "Execuhve 5ummary".data "Execuhve 5ummary".data
      "Execuhve 5ummary".data "Execuhve 5ummary".data "Execuhve 5ummary".data
      "Execuhve 5ummary".data
  all_goals decide

theorem applyBasicFixes_rnatch :
    applyBasicFixes "rnatch this vvork".data = "matoh this work".data := by
  rw [applyBasicFixes, runRules_rnatch]
  decide

theorem applyBasicFixes_matoh :
    applyBasicFixes "matoh this work".data = "mat0h this work".data := by
  rw [applyBasicFixes, runRules_matoh]
  decide

theorem applyBasicFixes_execSummary :
    applyBasicFixes "Executive Summary".data = "Execuhve 5ummary".data := by
  rw [applyBasicFixes, runRules_execSummary]
  decide

theorem wsClean_trimmed (m : List Char) : wsClean (trimWs (collapseWs m)) := by
  set x := collapseWs m with hx
  have hnadj : noAdjWs x = true := noAdjWs_collapseWsAux m false
  have hleft : headWs (trimLeft x) = false := headWs_dropWhile_isWs x
  have hnadjL : noAdjWs (trimLeft x) = true := noAdjWs_dropWhile_isWs x hnadj
  have hpre : trimRight (trimLeft x) <+: trimLeft x := trimRight_isPrefix _
  refine ⟨headWs_of_isPrefix hpre hleft, ?_, noAdjWs_of_isPrefix hpre hnadjL, ?_⟩
  · have : (trimRight (trimLeft x)).reverse = (trimLeft x).reverse.dropWhile isWs := by
      simp [trimRight]
    rw [trimWs, this]
    exact headWs_dropWhile_isWs _
  · intro c hc hw
    have hcx : c ∈ x := by
      have h1 : c ∈ trimLeft x := hpre.subset hc
      exact ((List.dropWhile_suffix isWs).subset) h1
    exact mem_collapseWsAux_ws m false c hcx hw

/-! ## Non-maximum suppression (`YOLOInference::nms`, yolo_inference.cpp)

The layout-detection box (`BBox` of common_types.h) and the greedy NMS
loop.  The C++ quotient `intersection / union_area` is an IEEE float; when
`union_area` is `0` the quotient is NaN, and `NaN > threshold` is false, so
a zero-union pair never suppresses.  The suppression test is embedded with
an explicit `union ≠ 0` guard to reproduce exactly this behaviour over `ℚ`.
-/

structure BBoxD where
  x1 : ℚ
  y1 : ℚ
  x2 : ℚ
  y2 : ℚ
  confidence : ℚ
  classId : ℤ
  label : List Char
deriving DecidableEq, Inhabited

/-- `float intersection = max(0, x2-x1) * max(0, y2-y1)` of the clipped box. -/
def nmsInter (a b : BBoxD) : ℚ :=
  max 0 (min a.x2 b.x2 - max a.x1 b.x1) * max 0 (min a.y2 b.y2 - max a.y1 b.y1)

/-- `(box.x2 - box.x1) * (box.y2 - box.y1)`. -/
def boxArea (a : BBoxD) : ℚ := (a.x2 - a.x1) * (a.y2 - a.y1)

/-- `float union_area = area_i + area_j - intersection`. -/
def nmsUnion (a b : BBoxD) : ℚ := boxArea a + boxArea b - nmsInter a b

/-- `float iou = intersection / union_area` (over `ℚ`; division by zero is
`0` by the Lean convention — see `iouSuppresses` for the comparison). -/
def iouVal (a b : BBoxD) : ℚ := nmsInter a b / nmsUnion a b

/-- The test `iou > threshold` of the inner NMS loop.  In C++ a zero union
makes `iou` NaN and the comparison false; the guard `union ≠ 0` encodes
precisely that (for a nonzero union the comparison is the rational one). -/
def iouSuppresses (a b : BBoxD) (t : ℚ) : Bool :=
  decide (nmsUnion a b ≠ 0) && decide (t < iouVal a b)

/-- `boxes[idx]`. -/
def boxAt (boxes : List BBoxD) (i : ℕ) : BBoxD := boxes.getD i default

/-- `std::sort(indices.begin(), indices.end(), conf-descending)`:
a permutation of `0 … n-1` sorted by descending confidence (the comparator
`boxes[a].confidence > boxes[b].confidence` admits any order on ties;
insertion sort realises one such order). -/
def sortIdx (boxes : List BBoxD) : List ℕ :=
  List.insertionSort
    (fun a b => (boxAt boxes b).confidence ≤ (boxAt boxes a).confidence)
    (List.range boxes.length)

/-- The greedy loop of `YOLOInference::nms`: visit positions in sorted
order; an unsuppressed index is kept and suppresses every later
unsuppressed index whose IoU with it exceeds the threshold. -/
def nmsLoop (boxes : List BBoxD) (t : ℚ) : List ℕ → List ℕ → List ℕ
  | [], _ => []
  | i :: rest, sup =>
    if i ∈ sup then nmsLoop boxes t rest sup
    else
      i :: nmsLoop boxes t rest
        (sup ++ rest.filter (fun j => iouSuppresses (boxAt boxes i) (boxAt boxes j) t))

/-- `YOLOInference::nms`: the kept indices, in the order they were kept. -/
def nms (boxes : List BBoxD) (t : ℚ) : List ℕ :=
  nmsLoop boxes t (sortIdx boxes) []

theorem nmsInter_comm (a b : BBoxD) : nmsInter a b = nmsInter b a := by
  unfold nmsInter
  rw [min_comm a.x2, max_comm a.x1, min_comm a.y2, max_comm a.y1]

theorem nmsUnion_comm (a b : BBoxD) : nmsUnion a b = nmsUnion b a := by
  unfold nmsUnion
  rw [nmsInter_comm]
  ring

theorem iouVal_comm (a b : BBoxD) : iouVal a b = iouVal b a := by
  rw [iouVal, iouVal, nmsInter_comm, nmsUnion_comm]

theorem iouSuppresses_comm (a b : BBoxD) (t : ℚ) :
    iouSuppresses a b t = iouSuppresses b a t := by
  rw [iouSuppresses, iouSuppresses, iouVal_comm, nmsUnion_comm]

/-- Everything the loop keeps comes from the worklist and was never
suppressed. -/
theorem mem_nmsLoop {boxes : List BBoxD} {t : ℚ} :
    ∀ {l sup z : _}, z ∈ nmsLoop boxes t l sup → z ∈ l ∧ z ∉ sup := by
  intro l
  induction l with
  | nil => intro sup z hz; simp [nmsLoop] at hz
  | cons i rest ih =>
    intro sup z hz
    by_cases hi : i ∈ sup
    · rw [nmsLoop, if_pos hi] at hz
      obtain ⟨h1, h2⟩ := ih hz
      exact ⟨List.mem_cons_of_mem _ h1, h2⟩
    · rw [nmsLoop, if_neg hi] at hz
      rcases List.mem_cons.mp hz with rfl | hz
      · exact ⟨List.mem_cons_self _ _, hi⟩
      · obtain ⟨h1, h2⟩ := ih hz
        refine ⟨List.mem_cons_of_mem _ h1, fun hzs => h2 ?_⟩
        exact List.mem_append_left _ hzs

/-- Two distinct kept indices never suppress one another. -/
theorem nmsLoop_no_pair {boxes : List BBoxD} {t : ℚ} :
    ∀ {l sup x y : _}, x ∈ nmsLoop boxes t l sup → y ∈ nmsLoop boxes t l sup →
      iouSuppresses (boxAt boxes x) (boxAt boxes y) t = true → x = y := by
  intro l
  induction l with
  | nil => intro sup x y hx _ _; simp [nmsLoop] at hx
  | cons i rest ih =>
    intro sup x y hx hy hs
    by_cases hi : i ∈ sup
    · rw [nmsLoop, if_pos hi] at hx hy
      exact ih hx hy hs
    · rw [nmsLoop, if_neg hi] at hx hy
      rcases List.mem_cons.mp hx with rfl | hx' <;>
        rcases List.mem_cons.mp hy with rfl | hy'
      · rfl
      · -- x is the kept head, y a later kept index: y escaped the filter
        obtain ⟨hyr, hys⟩ := mem_nmsLoop hy'
        exact absurd (List.mem_append_right _ (List.mem_filter.mpr ⟨hyr, hs⟩)) hys
      · obtain ⟨hxr, hxs⟩ := mem_nmsLoop hx'
        rw [iouSuppresses_comm] at hs
        exact absurd (List.mem_append_right _ (List.mem_filter.mpr ⟨hxr, hs⟩)) hxs
      · exact ih hx' hy' hs

/-- A visited index that is not kept was suppressed by a kept index of
confidence at least its own (the worklist is confidence-descending). -/
theorem nmsLoop_suppressor {boxes : List BBoxD} {t : ℚ} :
    ∀ {l sup j : _},
      l.Sorted (fun a b => (boxAt boxes b).confidence ≤ (boxAt boxes a).confidence) →
      j ∈ l → j ∉ sup → j ∉ nmsLoop boxes t l sup →
      ∃ i ∈ nmsLoop boxes t l sup,
        iouSuppresses (boxAt boxes i) (boxAt boxes j) t = true ∧
        (boxAt boxes j).confidence ≤ (boxAt boxes i).confidence := by
  intro l
  induction l with
  | nil => intro sup j _ hj; simp at hj
  | cons i rest ih =>
    intro sup j hsort hj hjs hjk
    obtain ⟨hrel, hsort'⟩ := List.sorted_cons.mp hsort
    by_cases hi : i ∈ sup
    · rw [nmsLoop, if_pos hi] at hjk ⊢
      have hjr : j ∈ rest := by
        rcases List.mem_cons.mp hj with rfl | h
        · exact absurd hi hjs
        · exact h
      exact ih hsort' hjr hjs hjk
    · rw [nmsLoop, if_neg hi] at hjk ⊢
      have hjr : j ∈ rest := by
        rcases List.mem_cons.mp hj with rfl | h
        · exact absurd (List.mem_cons_self _ _) hjk
        · exact h
      by_cases hj' : j ∈ sup ++ rest.filter
          (fun z => iouSuppresses (boxAt boxes i) (boxAt boxes z) t)
      · rcases List.mem_append.mp hj' with h | h
        · exact absurd h hjs
        · refine ⟨i, List.mem_cons_self _ _, (List.mem_filter.mp h).2, hrel j hjr⟩
      · have hjk' : j ∉ nmsLoop boxes t rest
            (sup ++ rest.filter (fun z => iouSuppresses (boxAt boxes i) (boxAt boxes z) t)) :=
          fun h => hjk (List.mem_cons_of_mem _ h)
        obtain ⟨w, hw1, hw2⟩ := ih hsort' hjr hj' hjk'
        exact ⟨w, List.mem_cons_of_mem _ hw1, hw2⟩

/-- With no suppression anywhere, every visited index outside `sup` is kept. -/
theorem nmsLoop_keeps_all {boxes : List BBoxD} {t : ℚ} :
    ∀ {l sup : _}, l.Nodup →
      (∀ i ∈ l, ∀ j ∈ l, i ≠ j →
        iouSuppresses (boxAt boxes i) (boxAt boxes j) t = false) →
      ∀ z ∈ l, z ∉ sup → z ∈ nmsLoop boxes t l sup := by
  intro l
  induction l with
  | nil => intro sup _ _ z hz; simp at hz
  | cons i rest ih =>
    intro sup hnd hsupp z hz hzs
    obtain ⟨hnd1, hnd2⟩ := List.nodup_cons.mp hnd
    by_cases hi : i ∈ sup
    · rw [nmsLoop, if_pos hi]
      have hzr : z ∈ rest := by
        rcases List.mem_cons.mp hz with rfl | h
        · exact absurd hi hzs
        · exact h
      exact ih hnd2
        (fun a ha b hb hab => hsupp a (List.mem_cons_of_mem _ ha) b (List.mem_cons_of_mem _ hb) hab)
        z hzr hzs
    · rw [nmsLoop, if_neg hi]
      rcases List.mem_cons.mp hz with rfl | hzr
      · exact List.mem_cons_self _ _
      · refine List.mem_cons_of_mem _ (ih hnd2
          (fun a ha b hb hab => hsupp a (List.mem_cons_of_mem _ ha) b (List.mem_cons_of_mem _ hb) hab)
          z hzr ?_)
        intro hmem
        rcases List.mem_append.mp hmem with h | h
        · exact hzs h
        · have hzi : i ≠ z := fun he => hnd1 (he ▸ hzr)
          have := (List.mem_filter.mp h).2
          rw [hsupp i (List.mem_cons_self _ _) z (List.mem_cons_of_mem _ hzr) hzi] at this
          exact Bool.false_ne_true this

theorem sortIdx_perm (boxes : List BBoxD) :
    List.Perm (sortIdx boxes) (List.range boxes.length) :=
  List.perm_insertionSort _ _

theorem sortIdx_sorted (boxes : List BBoxD) :
    (sortIdx boxes).Sorted
      (fun a b => (boxAt boxes b).confidence ≤ (boxAt boxes a).confidence) := by
  letI : IsTotal ℕ (fun a b => (boxAt boxes b).confidence ≤ (boxAt boxes a).confidence) :=
    ⟨fun a b => le_total _ _⟩
  letI : IsTrans ℕ (fun a b => (boxAt boxes b).confidence ≤ (boxAt boxes a).confidence) :=
    ⟨fun _ _ _ hab hbc => le_trans hbc hab⟩
  exact List.sorted_insertionSort _ _

theorem mem_sortIdx {boxes : List BBoxD} {i : ℕ} :
    i ∈ sortIdx boxes ↔ i < boxes.length := by
  rw [(sortIdx_perm boxes).mem_iff, List.mem_range]

theorem iouSuppresses_of_iou_gt {a b : BBoxD} {t : ℚ} (ht : 0 ≤ t)
    (h : t < iouVal a b) : iouSuppresses a b t = true := by
  have hu : nmsUnion a b ≠ 0 := by
    intro h0
    rw [iouVal, h0, div_zero] at h
    exact absurd h (not_lt.mpr ht)
  simp [iouSuppresses, hu, h]

theorem iou_gt_of_suppresses {a b : BBoxD} {t : ℚ}
    (h : iouSuppresses a b t = true) : t < iouVal a b := by
  rw [iouSuppresses, Bool.and_eq_true, decide_eq_true_eq, decide_eq_true_eq] at h
  exact h.2

/-- C1, amended.  For every box list and nonnegative IoU threshold:
(a) among any two input boxes whose IoU exceeds the threshold at most one
index is kept; (b) every box that is not kept was suppressed by a KEPT box
whose IoU with it exceeds the threshold and whose confidence is at least
its own — but not necessarily the higher-confidence member of every
overlapping pair it belongs to (see the counterexample); (c) if all
pairwise IoUs are 0, every input box is kept. -/
theorem claim_C1 (boxes : List BBoxD) (t : ℚ) (ht : 0 ≤ t) :
    (∀ i j, i < boxes.length → j < boxes.length → i ≠ j →
      t < iouVal (boxAt boxes i) (boxAt boxes j) →
      ¬(i ∈ nms boxes t ∧ j ∈ nms boxes t)) ∧
    (∀ j, j < boxes.length → j ∉ nms boxes t →
      ∃ i ∈ nms boxes t,
        t < iouVal (boxAt boxes i) (boxAt boxes j) ∧
        (boxAt boxes j).confidence ≤ (boxAt boxes i).confidence) ∧
    ((∀ i j, i < boxes.length → j < boxes.length → i ≠ j →
        iouVal (boxAt boxes i) (boxAt boxes j) = 0) →
      ∀ i, i < boxes.length → i ∈ nms boxes t) := by
  refine ⟨?_, ?_, ?_⟩
  · intro i j _ _ hij hiou ⟨hik, hjk⟩
    exact hij (nmsLoop_no_pair hik hjk (iouSuppresses_of_iou_gt ht hiou))
  · intro j hj hjk
    obtain ⟨i, hik, hsup, hconf⟩ :=
      nmsLoop_suppressor (sortIdx_sorted boxes) (mem_sortIdx.mpr hj)
        (List.not_mem_nil j) hjk
    exact ⟨i, hik, iou_gt_of_suppresses hsup, hconf⟩
  · intro hall i hi
    refine nmsLoop_keeps_all ((sortIdx_perm boxes).nodup_iff.mpr (List.nodup_range _))
      ?_ i (mem_sortIdx.mpr hi) (List.not_mem_nil i)
    intro a ha b hb hab
    rw [iouSuppresses]
    have : iouVal (boxAt boxes a) (boxAt boxes b) = 0 :=
      hall a b (mem_sortIdx.mp ha) (mem_sortIdx.mp hb) hab
    simp [this, not_lt.mpr ht]

/-- C1, counterexample to "whenever one of a pair of overlapping boxes
(IoU > threshold) is suppressed, the box that survives is the
higher-confidence one of the pair": with three boxes chained
A(conf .9) – B(conf .8) – C(conf .7), IoU(A,B) and IoU(B,C) above the
threshold .3 but IoU(A,C) below it, A suppresses B and C survives, so of
the overlapping pair (B, C) the lower-confidence box survives. -/
theorem claim_C1_counterexample :
    ¬(∀ i j : ℕ,
        (3 : ℚ)/10 < iouVal
          (boxAt [⟨0, 0, 10, 1, 9/10, 0, []⟩, ⟨4, 0, 14, 1, 8/10, 0, []⟩,
                  ⟨8, 0, 18, 1, 7/10, 0, []⟩] i)
          (boxAt [⟨0, 0, 10, 1, 9/10, 0, []⟩, ⟨4, 0, 14, 1, 8/10, 0, []⟩,
                  ⟨8, 0, 18, 1, 7/10, 0, []⟩] j) →
        i ∉ nms [⟨0, 0, 10, 1, 9/10, 0, []⟩, ⟨4, 0, 14, 1, 8/10, 0, []⟩,
                  ⟨8, 0, 18, 1, 7/10, 0, []⟩] ((3 : ℚ)/10) →
        j ∈ nms [⟨0, 0, 10, 1, 9/10, 0, []⟩, ⟨4, 0, 14, 1, 8/10, 0, []⟩,
                  ⟨8, 0, 18, 1, 7/10, 0, []⟩] ((3 : ℚ)/10) →
        (boxAt [⟨0, 0, 10, 1, 9/10, 0, []⟩, ⟨4, 0, 14, 1, 8/10, 0, []⟩,
                  ⟨8, 0, 18, 1, 7/10, 0, []⟩] i).confidence ≤
          (boxAt [⟨0, 0, 10, 1, 9/10, 0, []⟩, ⟨4, 0, 14, 1, 8/10, 0, []⟩,
                  ⟨8, 0, 18, 1, 7/10, 0, []⟩] j).confidence) := by
  intro h
  have hkeep : nms [⟨0, 0, 10, 1, 9/10, 0, []⟩, ⟨4, 0, 14, 1, 8/10, 0, []⟩,
      ⟨8, 0, 18, 1, 7/10, 0, []⟩] ((3 : ℚ)/10) = [0, 2] := by
    norm_num [nms, sortIdx, boxAt, List.insertionSort, List.orderedInsert,
      nmsLoop, iouSuppresses, iouVal, nmsInter, nmsUnion, boxArea, List.filter]
  have h1 : (1 : ℕ) ∉ ([0, 2] : List ℕ) := by decide
  have h2 : (2 : ℕ) ∈ ([0, 2] : List ℕ) := by decide
  have hiou : (3 : ℚ)/10 < iouVal
      (boxAt [⟨0, 0, 10, 1, 9/10, 0, []⟩, ⟨4, 0, 14, 1, 8/10, 0, []⟩,
              ⟨8, 0, 18, 1, 7/10, 0, []⟩] 1)
      (boxAt [⟨0, 0, 10, 1, 9/10, 0, []⟩, ⟨4, 0, 14, 1, 8/10, 0, []⟩,
              ⟨8, 0, 18, 1, 7/10, 0, []⟩] 2) := by
    norm_num [boxAt, iouVal, nmsInter, nmsUnion, boxArea]
  have := h 1 2 hiou (by rw [hkeep]; exact h1) (by rw [hkeep]; exact h2)
  norm_num [boxAt] at this

/-- C7.  In the NMS computation, a pair of boxes with union area zero has
IoU 0 (in C++ the quotient is 0/0 = NaN, whose comparison with every
threshold is false; over ℚ the quotient is 0 by the division-by-zero
convention) and never triggers suppression in either direction. -/
theorem claim_C7 (a b : BBoxD) (t : ℚ) (h : nmsUnion a b = 0) :
    iouVal a b = 0 ∧ iouSuppresses a b t = false ∧ iouSuppresses b a t = false := by
  refine ⟨by rw [iouVal, h, div_zero], ?_, ?_⟩
  · simp [iouSuppresses, h]
  · simp [iouSuppresses, nmsUnion_comm b a, h]

/-- C7 witness: the degenerate pair of equal zero-area boxes. -/
theorem claim_C7_witness :
    nmsUnion ⟨0, 0, 0, 0, 1, 0, []⟩ ⟨0, 0, 0, 0, 1, 0, []⟩ = 0 ∧
    (iouVal ⟨0, 0, 0, 0, 1, 0, []⟩ ⟨0, 0, 0, 0, 1, 0, []⟩ = 0 ∧
      iouSuppresses ⟨0, 0, 0, 0, 1, 0, []⟩ ⟨0, 0, 0, 0, 1, 0, []⟩ ((45 : ℚ)/100) = false ∧
      iouSuppresses ⟨0, 0, 0, 0, 1, 0, []⟩ ⟨0, 0, 0, 0, 1, 0, []⟩ ((45 : ℚ)/100) = false) :=
  ⟨by simp [nmsUnion, nmsInter, boxArea],
   claim_C7 _ _ _ (by simp [nmsUnion, nmsInter, boxArea])⟩

/-! ## Heading classifier (`heading_classifier.cpp`)

`determine_heading_level` and its helpers.  The C++ regular expressions are
small anchored patterns; each is embedded as a direct scanner with the same
ECMAScript matching semantics (greedy quantifiers whose backtracking cannot
change the outcome are realised as maximal munch; ordered alternation of a
boolean search is a disjunction).  `std::string::back()/front()` are
embedded with a default character (`backCharD`/`frontCharD`); the claim
about their safety is settled by the `Option`-instrumented copies further
down, which return `none` exactly when C++ would read out of bounds. -/

inductive HeadingLevel where
  | H1
  | H2
  | H3
  | H4
  | UNKNOWN
deriving DecidableEq, Inhabited

/-- `std::count(text.begin(), text.end(), ' ') + 1`. -/
def wordCount (t : List Char) : ℕ := countChar ' ' t + 1

/-- `text.back()` (total model; callers below guarantee non-emptiness,
which claim C9's instrumented functions verify). -/
def backCharD (t : List Char) : Char := t.getLastD (Char.ofNat 0)

/-- `text.front()` (total model). -/
def frontCharD (t : List Char) : Char := t.headD (Char.ofNat 0)

/-- `lower.find(w) == 0` for the function words of `is_likely_body_text`. -/
def bodyPrefixCheck (lower : List Char) : Bool :=
  "the ".data.isPrefixOf lower || "this ".data.isPrefixOf lower ||
  "in ".data.isPrefixOf lower || "for ".data.isPrefixOf lower ||
  "with ".data.isPrefixOf lower || "as ".data.isPrefixOf lower

/-- `HeadingClassifier::is_likely_body_text`. -/
def isLikelyBodyText (t : List Char) : Bool :=
  if byteLen t > 200 ∨ wordCount t > 25 then true
  else if backCharD t = '.' ∧ byteLen t > 50 then true
  else if countChar '.' t + countChar '!' t + countChar '?' t > 1 then true
  else if bodyPrefixCheck (toLowerStr t) ∧ wordCount t > 8 then true
  else false

/-- First byte of the list is a word character. -/
def headWordChar (l : List Char) : Bool :=
  match l with
  | [] => false
  | c :: _ => isWordChar c

/-- `lower.find(key) != npos`: `key` occurs as a contiguous subsequence. -/
def hasInfix (key : List Char) : List Char → Bool
  | [] => key.isEmpty
  | c :: cs => key.isPrefixOf (c :: cs) || hasInfix key cs

/-- H1 indicator 1: document-section keywords
(`lower.find(kw) == 0`, `lower.find("phase …") != npos`). -/
def h1Keyword (t : List Char) : Bool :=
  let lower := toLowerStr t
  "abstract".data.isPrefixOf lower || "introduction".data.isPrefixOf lower ||
  "executive summary".data.isPrefixOf lower || "conclusion".data.isPrefixOf lower ||
  "appendix".data.isPrefixOf lower || "summary".data.isPrefixOf lower ||
  hasInfix "phase i".data lower || hasInfix "phase ii".data lower ||
  hasInfix "phase iii".data lower

/-- H1 indicator 2: `^(chapter|section|part|phase)\s+[IVX0-9]` (icase). -/
def h1Numbered (t : List Char) : Bool :=
  let lower := toLowerStr t
  ["chapter".data, "section".data, "part".data, "phase".data].any (fun w =>
    w.isPrefixOf lower &&
    (let r := (lower.drop w.length)
     let ws := r.takeWhile isWs
     decide (1 ≤ ws.length) &&
     (match r.drop ws.length with
      | c :: _ => isAsciiLower c && (c = 'i' || c = 'v' || c = 'x') || isAsciiDigit c
      | [] => false)))

/-- `matches_h1_patterns`. -/
def matchesH1Patterns (t : List Char) (page : ℤ) : Bool :=
  h1Keyword t || h1Numbered t || (decide (page = 1) && decide (byteLen t > 20))

/-- H2 indicator 1: canonical section-header words. -/
def h2Keyword (t : List Char) : Bool :=
  let lower := toLowerStr t
  lower = "background".data || lower = "methodology".data ||
  lower = "results".data || lower = "discussion".data ||
  lower = "references".data || lower = "bibliography".data ||
  lower = "acknowledgments".data || "timeline:".data.isPrefixOf lower ||
  "evaluation".data.isPrefixOf lower || "funding".data.isPrefixOf lower

/-- H2 indicator 2: `^\d+\.\d+`. -/
def h2Subsection (t : List Char) : Bool :=
  let ds := t.takeWhile isAsciiDigit
  decide (1 ≤ ds.length) &&
  (match t.drop ds.length with
   | '.' :: c :: _ => isAsciiDigit c
   | _ => false)

def matchesH2Patterns (t : List Char) : Bool := h2Keyword t || h2Subsection t

/-- H3 indicator 1: `^\d+\.?\s` or `^[a-z]\)\s` (icase). -/
def h3ListMarker (t : List Char) : Bool :=
  (let ds := t.takeWhile isAsciiDigit
   decide (1 ≤ ds.length) &&
   (headWs (t.drop ds.length) ||
    (match t.drop ds.length with
     | '.' :: r => headWs r
     | _ => false))) ||
  (match t with
   | c :: ')' :: r => isAsciiAlpha c && headWs r
   | _ => false)

/-- H3 indicator 2: trailing colon with length in (5, 60). -/
def h3Colon (t : List Char) : Bool :=
  backCharD t = ':' && decide (byteLen t > 5) && decide (byteLen t < 60)

def matchesH3Patterns (t : List Char) : Bool := h3ListMarker t || h3Colon t

/-- One-or-two digits, a slash or dash, one-or-two digits, a slash or
dash, then two-to-four digits followed by a word boundary — the first date
regex of the H4 indicators — anchored at the head of `s` (the leading
word boundary is handled by the scanner). -/
def dateSlashAt (s : List Char) : Bool :=
  let ds := s.takeWhile isAsciiDigit
  decide (1 ≤ ds.length) && decide (ds.length ≤ 2) &&
  (match s.drop ds.length with
   | c :: r2 =>
     (c = '/' || c = '-') &&
     (let ds2 := r2.takeWhile isAsciiDigit
      decide (1 ≤ ds2.length) && decide (ds2.length ≤ 2) &&
      (match r2.drop ds2.length with
       | c2 :: r3 =>
         (c2 = '/' || c2 = '-') &&
         (let ds3 := r3.takeWhile isAsciiDigit
          decide (2 ≤ ds3.length) && decide (ds3.length ≤ 4) &&
          !headWordChar (r3.drop ds3.length))
       | [] => false))
   | [] => false)

/-- `(january|…|december)\s+\d{1,2},?\s+\d{4}` at the head of the lowered
suffix `s`. -/
def monthDateAt (s : List Char) : Bool :=
  ["january".data, "february".data, "march".data, "april".data, "may".data,
   "june".data, "july".data, "august".data, "september".data, "october".data,
   "november".data, "december".data].any (fun m =>
    m.isPrefixOf s &&
    (let r := s.drop m.length
     let ws := r.takeWhile isWs
     decide (1 ≤ ws.length) &&
     (let r2 := r.drop ws.length
      let ds := r2.takeWhile isAsciiDigit
      decide (1 ≤ ds.length) && decide (ds.length ≤ 2) &&
      (let r3 := r2.drop ds.length
       let r4 := match r3 with
         | ',' :: rr => rr
         | _ => r3
       let ws2 := r4.takeWhile isWs
       decide (1 ≤ ws2.length) &&
       decide (4 ≤ ((r4.drop ws2.length).takeWhile isAsciiDigit).length)))))

/-- `timeline:` at the head of the lowered suffix (`\s*` matches the empty
string, so it adds nothing to a search). -/
def timelineAt (s : List Char) : Bool := "timeline:".data.isPrefixOf s

/-- Unanchored search with a `\b` before a word-character-initial pattern:
try every position whose preceding byte is not a word character. -/
def scanB (p : List Char → Bool) : Bool → List Char → Bool
  | _, [] => false
  | prevWord, c :: cs => (!prevWord && p (c :: cs)) || scanB p (isWordChar c) cs

/-- H4 indicator 1: the three date/timestamp regex searches. -/
def h4Date (t : List Char) : Bool :=
  scanB dateSlashAt false t ||
  scanB monthDateAt false (toLowerStr t) ||
  scanB timelineAt false (toLowerStr t)

/-- H4 indicator 2: short bullet-prefixed fragment. -/
def h4Bullet (t : List Char) : Bool :=
  (frontCharD t = '-' || frontCharD t = '*') && decide (byteLen t < 50)

def matchesH4Patterns (t : List Char) : Bool := h4Date t || h4Bullet t

/-- `classify_by_patterns`: H1, then H4, then H3, then H2. -/
def classifyByPatterns (t : List Char) (page : ℤ) : HeadingLevel :=
  if matchesH1Patterns t page then HeadingLevel.H1
  else if matchesH4Patterns t then HeadingLevel.H4
  else if matchesH3Patterns t then HeadingLevel.H3
  else if matchesH2Patterns t then HeadingLevel.H2
  else HeadingLevel.UNKNOWN

/-- `validate_heading_candidate`: the per-level length/word-count envelope. -/
def validateHeadingCandidate (t : List Char) : HeadingLevel → Bool
  | HeadingLevel.H1 =>
    decide (10 ≤ byteLen t) && decide (byteLen t ≤ 150) && decide (wordCount t ≤ 20)
  | HeadingLevel.H2 =>
    decide (5 ≤ byteLen t) && decide (byteLen t ≤ 120) && decide (wordCount t ≤ 15)
  | HeadingLevel.H3 =>
    decide (3 ≤ byteLen t) && decide (byteLen t ≤ 100) && decide (wordCount t ≤ 12)
  | HeadingLevel.H4 =>
    decide (3 ≤ byteLen t) && decide (byteLen t ≤ 80) && decide (wordCount t ≤ 10)
  | HeadingLevel.UNKNOWN => false

def isIVX (c : Char) : Bool := c = 'I' || c = 'V' || c = 'X'

/-- `^\s*(?:\d+\.|\d+\.\d+\.?|[IVX]+\.?|[A-Z]\.)\s` (has_heading_structure,
check 1). -/
def structuredPrefix (t : List Char) : Bool :=
  let r := t.dropWhile isWs
  let ds := r.takeWhile isAsciiDigit
  (decide (1 ≤ ds.length) &&
    (match r.drop ds.length with
     | '.' :: r2 =>
       headWs r2 ||
       (let d2 := r2.takeWhile isAsciiDigit
        decide (1 ≤ d2.length) &&
        (headWs (r2.drop d2.length) ||
         (match r2.drop d2.length with
          | '.' :: r3 => headWs r3
          | _ => false)))
     | _ => false)) ||
  (let v := r.takeWhile isIVX
   decide (1 ≤ v.length) &&
   (headWs (r.drop v.length) ||
    (match r.drop v.length with
     | '.' :: r2 => headWs r2
     | _ => false))) ||
  (match r with
   | c :: '.' :: r2 => isAsciiUpper c && headWs r2
   | _ => false)

/-- has_heading_structure check 3: all-caps text of length in (3, 50) with
more than two letters (a lowercase letter breaks the scan). -/
def allCapsCheck (t : List Char) : Bool :=
  decide (byteLen t > 3) && decide (byteLen t < 50) &&
  t.all (fun c => !isAsciiLower c) && decide (t.countP (fun c => isAsciiAlpha c) > 2)

/-- `istringstream >> word` splitting (whitespace-separated words). -/
def splitWsAux : List Char → List Char → List (List Char)
  | [], acc => if acc = [] then [] else [acc.reverse]
  | c :: cs, acc =>
    if isWs c then
      (if acc = [] then splitWsAux cs [] else acc.reverse :: splitWsAux cs [])
    else splitWsAux cs (c :: acc)

def splitWs (l : List Char) : List (List Char) := splitWsAux l []

/-- The `while (iss >> word && total < 10)` counting loop of
has_heading_structure check 4: `(total, capitalized)`. -/
def titleCounts : List (List Char) → ℕ → ℕ → ℕ × ℕ
  | [], tot, cap => (tot, cap)
  | w :: ws, tot, cap =>
    if tot < 10 then
      match w with
      | c :: _ =>
        if isAsciiAlpha c then
          titleCounts ws (tot + 1) (if isAsciiUpper c then cap + 1 else cap)
        else titleCounts ws tot cap
      | [] => titleCounts ws tot cap
    else (tot, cap)

/-- has_heading_structure check 4: 2–8 alpha-initial words among the first
ten, at least 70 % of them capitalised (`(float)capitalized / total >= 0.7`). -/
def titleCaseCheck (t : List Char) : Bool :=
  let tc := titleCounts (splitWs t) 0 0
  decide (2 ≤ tc.1) && decide (tc.1 ≤ 8) &&
  decide ((7 : ℚ)/10 ≤ (tc.2 : ℚ) / (tc.1 : ℚ))

/-- `HeadingClassifier::has_heading_structure`. -/
def hasHeadingStructure (t : List Char) : Bool :=
  structuredPrefix t ||
  (backCharD t = ':' && decide (byteLen t > 5) && decide (byteLen t < 80)) ||
  allCapsCheck t ||
  titleCaseCheck t

/-- `^\s*(?:\d+\.|\d+\s+[A-Z]|[IVX]+\.)\s` (classify_by_structure). -/
def structRegex2 (t : List Char) : Bool :=
  let r := t.dropWhile isWs
  let ds := r.takeWhile isAsciiDigit
  (decide (1 ≤ ds.length) &&
    (match r.drop ds.length with
     | '.' :: r2 => headWs r2
     | _ => false)) ||
  (decide (1 ≤ ds.length) &&
    (let ws := (r.drop ds.length).takeWhile isWs
     decide (1 ≤ ws.length) &&
     (match (r.drop ds.length).drop ws.length with
      | c :: r3 => isAsciiUpper c && headWs r3
      | [] => false))) ||
  (let v := r.takeWhile isIVX
   decide (1 ≤ v.length) &&
   (match r.drop v.length with
    | '.' :: r2 => headWs r2
    | _ => false))

/-- `HeadingClassifier::classify_by_structure`. -/
def classifyByStructure (t : List Char) (page : ℤ) : HeadingLevel :=
  if page = 1 ∧ byteLen t > 20 ∧ 3 ≤ wordCount t then HeadingLevel.H1
  else if structRegex2 t then
    (if wordCount t ≤ 6 then HeadingLevel.H1 else HeadingLevel.H2)
  else if backCharD t = ':' then
    (if wordCount t ≤ 4 then HeadingLevel.H3 else HeadingLevel.H4)
  else if wordCount t ≤ 3 then HeadingLevel.H4
  else if wordCount t ≤ 6 then HeadingLevel.H3
  else if wordCount t ≤ 10 then HeadingLevel.H2
  else HeadingLevel.UNKNOWN

/-- `convert_yolo_label_to_heading_level`. -/
def convertYoloLabelToHeadingLevel (label : List Char) : HeadingLevel :=
  if label = "title".data then HeadingLevel.H1
  else if label = "text".data then HeadingLevel.H2
  else if label = "list".data then HeadingLevel.H3
  else if label = "figure".data ∨ label = "table".data ∨ label = "header".data ∨
          label = "footer".data ∨ label = "reference".data ∨ label = "equation".data then
    HeadingLevel.UNKNOWN
  else HeadingLevel.UNKNOWN

/-- `HeadingClassifier::determine_heading_level`: length guard, body-text
filter, then the three-stage cascade (layout label, patterns, structural
fallback for label "text"). -/
def determineHeadingLevel (t l : List Char) (page : ℤ) : HeadingLevel :=
  if t = [] ∨ byteLen t < 3 then HeadingLevel.UNKNOWN
  else if isLikelyBodyText t then HeadingLevel.UNKNOWN
  else if convertYoloLabelToHeadingLevel l ≠ HeadingLevel.UNKNOWN ∧
      validateHeadingCandidate t (convertYoloLabelToHeadingLevel l) = true then
    convertYoloLabelToHeadingLevel l
  else if classifyByPatterns t page ≠ HeadingLevel.UNKNOWN ∧
      validateHeadingCandidate t (classifyByPatterns t page) = true then
    classifyByPatterns t page
  else if l = "text".data ∧ hasHeadingStructure t = true then
    (if classifyByStructure t page ≠ HeadingLevel.UNKNOWN then classifyByStructure t page
     else HeadingLevel.UNKNOWN)
  else HeadingLevel.UNKNOWN

/-! ## Detection decoder (`postprocess_yolo11_detections`, yolo_inference.cpp)

The raw tensor is a flat float buffer laid out `[attribute][detection]`
(`output_data[(4 + c) * num_detections + i]`), modelled as a function
`ℕ → ℚ`.  The logistic `1/(1+exp(-x))` is kept abstract as a parameter
`σ : ℚ → ℚ`; it is applied to a raw score exactly when the score exceeds
`1.0`.  The class count is the hardcoded `num_classes = 11` of the source
(`num_attributes` is passed but unused there). -/

def numClasses : ℕ := 11

/-- `output_data[attr * num_detections + i]`. -/
def attrAt (data : ℕ → ℚ) (D attr i : ℕ) : ℚ := data (attr * D + i)

/-- `raw > 1.0f ? 1/(1+exp(-raw)) : raw` with the logistic abstracted. -/
def condConf (σ : ℚ → ℚ) (raw : ℚ) : ℚ := if 1 < raw then σ raw else raw

/-- One step of the best-class fold (`if (conf > max_conf) { … }`). -/
def bestStep (σ : ℚ → ℚ) (data : ℕ → ℚ) (D i : ℕ) (p : ℚ × ℤ) (c : ℕ) : ℚ × ℤ :=
  if p.1 < condConf σ (attrAt data D (4 + c) i) then
    (condConf σ (attrAt data D (4 + c) i), (c : ℤ))
  else p

/-- The `max_conf = 0 / best_class = -1` fold over the 11 classes. -/
def bestPair (σ : ℚ → ℚ) (data : ℕ → ℚ) (D i : ℕ) : ℚ × ℤ :=
  (List.range numClasses).foldl (bestStep σ data D i) (0, -1)

/-- `map_doclayout_to_class` (yolo_inference.cpp). -/
def mapDoclayoutToClass (classId : ℤ) : List Char :=
  if classId = 0 then "caption".data
  else if classId = 1 then "footnote".data
  else if classId = 2 then "formula".data
  else if classId = 3 then "list".data
  else if classId = 4 then "footer".data
  else if classId = 5 then "header".data
  else if classId = 6 then "figure".data
  else if classId = 7 then "paragraph_title".data
  else if classId = 8 then "table".data
  else if classId = 9 then "text".data
  else if classId = 10 then "title".data
  else "text".data

/-- Corner-form conversion and scaling of detection `i`. -/
def decodeBox (σ : ℚ → ℚ) (data : ℕ → ℚ) (D : ℕ) (sx sy : ℚ) (i : ℕ) : BBoxD :=
  { x1 := (attrAt data D 0 i - attrAt data D 2 i / 2) * sx
    y1 := (attrAt data D 1 i - attrAt data D 3 i / 2) * sy
    x2 := (attrAt data D 0 i + attrAt data D 2 i / 2) * sx
    y2 := (attrAt data D 1 i + attrAt data D 3 i / 2) * sy
    confidence := (bestPair σ data D i).1
    classId := (bestPair σ data D i).2
    label := mapDoclayoutToClass (bestPair σ data D i).2 }

/-- The candidate loop: drop detection `i` when `max_conf < conf_threshold`. -/
def decodeBoxes (σ : ℚ → ℚ) (data : ℕ → ℚ) (D : ℕ) (sx sy θ : ℚ) : List BBoxD :=
  (List.range D).filterMap (fun i =>
    if (bestPair σ data D i).1 < θ then none else some (decodeBox σ data D sx sy i))

/-- `postprocess_yolo11_detections`: decode, then NMS, then gather the kept
boxes. -/
def postprocessYolo11 (σ : ℚ → ℚ) (data : ℕ → ℚ) (D : ℕ) (sx sy θ tnms : ℚ) :
    List BBoxD :=
  (nms (decodeBoxes σ data D sx sy θ) tnms).map
    (fun idx => boxAt (decodeBoxes σ data D sx sy θ) idx)

/-- `create_fallback_layout` (yolo_inference.cpp): a title band plus up to
three evenly spaced paragraph-title bands (`y_start = 0.15 + i*0.2 < 0.8`). -/
def createFallbackLayout (w h : ℚ) : List BBoxD :=
  ⟨1/10 * w, 5/100 * h, 9/10 * w, 15/100 * h, 95/100, 1, "title".data⟩ ::
  (List.range 3).filterMap (fun k =>
    if (15/100 + ((k : ℚ) + 1) * (2/10)) < 8/10 then
      some ⟨1/10 * w, (15/100 + ((k : ℚ) + 1) * (2/10)) * h, 7/10 * w,
            ((15/100 + ((k : ℚ) + 1) * (2/10)) + 5/100) * h, 85/100, 5,
            "paragraph_title".data⟩
    else none)

/-! ## PDF processor (`pdf_processor.cpp`)

`cv::Rect` is integral; `static_cast<int>` of a float truncates toward
zero (`truncQ`).  `detect_tables_on_page` buckets MuPDF text blocks into
columns and emits at most one table rectangle; `is_region_overlapping_table`
is the 30 % exclusion filter; `process_single_page_ai` is the per-page
pipeline with OCR as an external oracle. -/

structure CvRect where
  x : ℤ
  y : ℤ
  w : ℤ
  h : ℤ
deriving DecidableEq, Inhabited

/-- `static_cast<int>` of a float value: truncation toward zero. -/
def truncQ (q : ℚ) : ℤ := if 0 ≤ q then ⌊q⌋ else ⌈q⌉

def rectArea (r : CvRect) : ℤ := r.w * r.h

/-- `cv::Rect operator&`: intersection, the empty rectangle when
degenerate. -/
def rectInter (a b : CvRect) : CvRect :=
  let x1 := max a.x b.x
  let y1 := max a.y b.y
  let w := min (a.x + a.w) (b.x + b.w) - x1
  let h := min (a.y + a.h) (b.y + b.h) - y1
  if w ≤ 0 ∨ h ≤ 0 then ⟨0, 0, 0, 0⟩ else ⟨x1, y1, w, h⟩

/-- `PDFProcessor::is_region_overlapping_table`: some table rectangle
intersects the region in more than 30 % (`> 0.3f`) of the region's own
area. -/
def isRegionOverlappingTable (region : CvRect) (tables : List CvRect) : Bool :=
  tables.any (fun tr =>
    decide (0 < rectArea (rectInter region tr)) &&
    decide ((3 : ℚ)/10 <
      (rectArea (rectInter region tr) : ℚ) / (rectArea region : ℚ)))

/-- One MuPDF text-block bounding box (`fz_rect`). -/
structure FzRect where
  x0 : ℚ
  y0 : ℚ
  x1 : ℚ
  y1 : ℚ
deriving DecidableEq, Inhabited

/-- Greedy column assignment: the first existing bucket whose first
block's x0 is within the 10-pixel tolerance (strict `< 10`), else a new
bucket at the end. -/
def placeBlock (cols : List (List FzRect)) (b : FzRect) : List (List FzRect) :=
  match cols with
  | [] => [[b]]
  | col :: rest =>
    match col with
    | [] => col :: placeBlock rest b
    | c0 :: _ =>
      if |c0.x0 - b.x0| < 10 then (col ++ [b]) :: rest
      else col :: placeBlock rest b

def buildColumns (blocks : List FzRect) : List (List FzRect) :=
  blocks.foldl placeBlock []

/-- `valid_columns`: buckets holding at least two blocks. -/
def validColumns (blocks : List FzRect) : ℕ :=
  ((buildColumns blocks).filter (fun col => decide (2 ≤ col.length))).length

/-- The union fold of the source, with its initial values
`min_x = min_y = 1000000`, `max_x = max_y = 0`. -/
def unionMinX (blocks : List FzRect) : ℚ := blocks.foldl (fun m b => min m b.x0) 1000000
def unionMinY (blocks : List FzRect) : ℚ := blocks.foldl (fun m b => min m b.y0) 1000000
def unionMaxX (blocks : List FzRect) : ℚ := blocks.foldl (fun m b => max m b.x1) 0
def unionMaxY (blocks : List FzRect) : ℚ := blocks.foldl (fun m b => max m b.y1) 0

/-- `PDFProcessor::detect_tables_on_page`, from the collected text-block
rectangles onward (block collection itself is external MuPDF I/O):
at least 6 blocks and at least 2 buckets of ≥ 2 blocks yield exactly one
rectangle — the scaled union of ALL collected blocks — else none. -/
def detectTables (blocks : List FzRect) (scale : ℚ) : List CvRect :=
  if 6 ≤ blocks.length then
    (if 2 ≤ validColumns blocks then
      [⟨truncQ (unionMinX blocks * scale), truncQ (unionMinY blocks * scale),
        truncQ ((unionMaxX blocks - unionMinX blocks) * scale),
        truncQ ((unionMaxY blocks - unionMinY blocks) * scale)⟩]
    else [])
  else []

/-- The genuine extent union of `b0 :: bs` (the specification's "union of
the extents of ALL collected blocks"), as fold from the first block. -/
def specMinX (b0 : FzRect) (bs : List FzRect) : ℚ := bs.foldl (fun m b => min m b.x0) b0.x0
def specMinY (b0 : FzRect) (bs : List FzRect) : ℚ := bs.foldl (fun m b => min m b.y0) b0.y0
def specMaxX (b0 : FzRect) (bs : List FzRect) : ℚ := bs.foldl (fun m b => max m b.x1) b0.x1
def specMaxY (b0 : FzRect) (bs : List FzRect) : ℚ := bs.foldl (fun m b => max m b.y1) b0.y1

/-- `HeadingInfo` (pdf_processor.hpp). -/
structure HeadingInfo where
  level : List Char
  text : List Char
  pageNumber : ℤ
  boundingBox : CvRect
  confidence : ℚ
deriving DecidableEq, Inhabited

/-- The observable behaviour of one `process_single_page_ai` run: the
emitted headings, the rectangles handed to the OCR engine, and the
(corrected text, label) pairs handed to the heading classifier. -/
structure PageTrace where
  headings : List HeadingInfo
  ocrCalls : List CvRect
  classifyCalls : List (List Char × List Char)
deriving DecidableEq

/-- `cv::Rect bbox(x1, y1, x2-x1, y2-y1)` with the int casts. -/
def bboxToRect (d : BBoxD) : CvRect :=
  ⟨truncQ d.x1, truncQ d.y1, truncQ (d.x2 - d.x1), truncQ (d.y2 - d.y1)⟩

/-- `safe_bbox = bbox & cv::Rect(0, 0, image.cols, image.rows)`. -/
def clipRect (bbox : CvRect) (w h : ℤ) : CvRect := rectInter bbox ⟨0, 0, w, h⟩

/-- The `switch (classified_level)` to a string. -/
def levelString : HeadingLevel → List Char
  | HeadingLevel.H1 => "H1".data
  | HeadingLevel.H2 => "H2".data
  | HeadingLevel.H3 => "H3".data
  | HeadingLevel.H4 => "H4".data
  | HeadingLevel.UNKNOWN => "H2".data

/-- One iteration of the detection loop of `process_single_page_ai`:
skip table-overlapping regions, OCR only title/paragraph_title/text
regions with a non-degenerate clipped box, correct the text, classify,
and emit a record unless UNKNOWN.  `ocr` is the external Tesseract call
on the clipped rectangle. -/
def pageStep (ocr : CvRect → List Char) (tables : List CvRect)
    (imgW imgH page : ℤ) (tr : PageTrace) (det : BBoxD) : PageTrace :=
  if isRegionOverlappingTable (bboxToRect det) tables then tr
  else if det.label = "title".data ∨ det.label = "paragraph_title".data ∨
      det.label = "text".data then
    (if (clipRect (bboxToRect det) imgW imgH).w ≤ 0 ∨
        (clipRect (bboxToRect det) imgW imgH).h ≤ 0 then tr
     else
      (let extracted := ocr (clipRect (bboxToRect det) imgW imgH)
       let tr1 : PageTrace :=
         ⟨tr.headings, tr.ocrCalls ++ [clipRect (bboxToRect det) imgW imgH],
          tr.classifyCalls⟩
       if extracted ≠ [] ∧ 2 < byteLen extracted then
         (let corrected := correctText extracted
          let tr2 : PageTrace :=
            ⟨tr1.headings, tr1.ocrCalls,
             tr1.classifyCalls ++ [(corrected, det.label)]⟩
          if determineHeadingLevel corrected det.label page = HeadingLevel.UNKNOWN then
            tr2
          else
            ⟨tr2.headings ++
              [⟨levelString (determineHeadingLevel corrected det.label page),
                corrected, page, bboxToRect det, det.confidence⟩],
             tr2.ocrCalls, tr2.classifyCalls⟩)
       else tr1))
  else tr

/-- `PDFProcessor::process_single_page_ai`: the detection loop. -/
def processSinglePageAI (ocr : CvRect → List Char) (tables : List CvRect)
    (dets : List BBoxD) (imgW imgH : ℤ) (page : ℤ) : PageTrace :=
  dets.foldl (pageStep ocr tables imgW imgH page) ⟨[], [], []⟩

theorem truncQ_intCast (n : ℤ) : truncQ ((n : ℚ)) = n := by
  rw [truncQ]
  split_ifs with h
  · exact_mod_cast Int.floor_intCast n
  · exact_mod_cast Int.ceil_intCast n

/-- The positive branch of the table heuristic: condition met, the emitted
rectangle is the scaled genuine union of all blocks (the 10^6/0 fold seeds
are absorbed as soon as the first block is in range). -/
theorem detectTables_pos (b0 : FzRect) (bs : List FzRect) (scale : ℚ)
    (h1 : b0.x0 ≤ 1000000) (h2 : b0.y0 ≤ 1000000) (h3 : 0 ≤ b0.x1) (h4 : 0 ≤ b0.y1)
    (hlen : 6 ≤ (b0 :: bs).length) (hcols : 2 ≤ validColumns (b0 :: bs)) :
    detectTables (b0 :: bs) scale =
      [⟨truncQ (specMinX b0 bs * scale), truncQ (specMinY b0 bs * scale),
        truncQ ((specMaxX b0 bs - specMinX b0 bs) * scale),
        truncQ ((specMaxY b0 bs - specMinY b0 bs) * scale)⟩] := by
  rw [detectTables, if_pos hlen, if_pos hcols]
  have ex : unionMinX (b0 :: bs) = specMinX b0 bs := by
    rw [unionMinX, specMinX, List.foldl_cons, min_eq_right h1]
  have ey : unionMinY (b0 :: bs) = specMinY b0 bs := by
    rw [unionMinY, specMinY, List.foldl_cons, min_eq_right h2]
  have fx : unionMaxX (b0 :: bs) = specMaxX b0 bs := by
    rw [unionMaxX, specMaxX, List.foldl_cons, max_eq_right h3]
  have fy : unionMaxY (b0 :: bs) = specMaxY b0 bs := by
    rw [unionMaxY, specMaxY, List.foldl_cons, max_eq_right h4]
  rw [ex, ey, fx, fy]

theorem detectTables_neg (blocks : List FzRect) (scale : ℚ)
    (h : ¬(6 ≤ blocks.length ∧ 2 ≤ validColumns blocks)) :
    detectTables blocks scale = [] := by
  rw [detectTables]
  by_cases h6 : 6 ≤ blocks.length
  · rw [if_pos h6, if_neg (fun hc => h ⟨h6, hc⟩)]
  · rw [if_neg h6]

/-- C5.  The table heuristic emits exactly one rectangle — the union of the
extents of ALL collected blocks, scaled (with the int truncation of the
source's cast) — precisely when there are at least 6 blocks and the greedy
10-px bucketing yields at least 2 buckets of at least 2 blocks; otherwise
it emits none.  Concretely: 8 blocks in two aligned columns of 4 are
flagged (as the scaled union), 5 unaligned blocks are not. -/
theorem claim_C5 :
    (∀ (b0 : FzRect) (bs : List FzRect) (scale : ℚ),
      b0.x0 ≤ 1000000 → b0.y0 ≤ 1000000 → 0 ≤ b0.x1 → 0 ≤ b0.y1 →
      6 ≤ (b0 :: bs).length → 2 ≤ validColumns (b0 :: bs) →
      detectTables (b0 :: bs) scale =
        [⟨truncQ (specMinX b0 bs * scale), truncQ (specMinY b0 bs * scale),
          truncQ ((specMaxX b0 bs - specMinX b0 bs) * scale),
          truncQ ((specMaxY b0 bs - specMinY b0 bs) * scale)⟩]) ∧
    (∀ (blocks : List FzRect) (scale : ℚ),
      ¬(6 ≤ blocks.length ∧ 2 ≤ validColumns blocks) →
      detectTables blocks scale = []) ∧
    detectTables
      [⟨100, 100, 150, 110⟩, ⟨300, 100, 350, 110⟩,
       ⟨100, 120, 150, 130⟩, ⟨300, 120, 350, 130⟩,
       ⟨100, 140, 150, 150⟩, ⟨300, 140, 350, 150⟩,
       ⟨100, 160, 150, 170⟩, ⟨300, 160, 350, 170⟩] 2 = [⟨200, 200, 500, 140⟩] ∧
    detectTables
      [⟨0, 100, 40, 110⟩, ⟨20, 120, 60, 130⟩, ⟨40, 140, 80, 150⟩,
       ⟨60, 160, 100, 170⟩, ⟨80, 180, 120, 190⟩] 2 = [] := by
  refine ⟨detectTables_pos, detectTables_neg, ?_, ?_⟩
  · rw [detectTables_pos ⟨100, 100, 150, 110⟩
      [⟨300, 100, 350, 110⟩,
       ⟨100, 120, 150, 130⟩, ⟨300, 120, 350, 130⟩,
       ⟨100, 140, 150, 150⟩, ⟨300, 140, 350, 150⟩,
       ⟨100, 160, 150, 170⟩, ⟨300, 160, 350, 170⟩] 2
      (by norm_num) (by norm_num) (by norm_num) (by norm_num)
      (by norm_num)
      (by norm_num [validColumns, buildColumns, placeBlock, List.foldl, List.filter])]
    norm_num [specMinX, specMinY, specMaxX, specMaxY, List.foldl, truncQ]
  · exact detectTables_neg _ _ (fun hc => by
      have := hc.1
      norm_num at this)

/-- C5 witness: the two-column instance, through the universally quantified
positive branch. -/
theorem claim_C5_witness :
    detectTables
      [⟨100, 100, 150, 110⟩, ⟨300, 100, 350, 110⟩,
       ⟨100, 120, 150, 130⟩, ⟨300, 120, 350, 130⟩,
       ⟨100, 140, 150, 150⟩, ⟨300, 140, 350, 150⟩,
       ⟨100, 160, 150, 170⟩, ⟨300, 160, 350, 170⟩] 2 =
      [⟨truncQ (specMinX ⟨100, 100, 150, 110⟩
          [⟨300, 100, 350, 110⟩,
           ⟨100, 120, 150, 130⟩, ⟨300, 120, 350, 130⟩,
           ⟨100, 140, 150, 150⟩, ⟨300, 140, 350, 150⟩,
           ⟨100, 160, 150, 170⟩, ⟨300, 160, 350, 170⟩] * 2),
        truncQ (specMinY ⟨100, 100, 150, 110⟩
          [⟨300, 100, 350, 110⟩,
           ⟨100, 120, 150, 130⟩, ⟨300, 120, 350, 130⟩,
           ⟨100, 140, 150, 150⟩, ⟨300, 140, 350, 150⟩,
           ⟨100, 160, 150, 170⟩, ⟨300, 160, 350, 170⟩] * 2),
        truncQ ((specMaxX ⟨100, 100, 150, 110⟩
          [⟨300, 100, 350, 110⟩,
           ⟨100, 120, 150, 130⟩, ⟨300, 120, 350, 130⟩,
           ⟨100, 140, 150, 150⟩, ⟨300, 140, 350, 150⟩,
           ⟨100, 160, 150, 170⟩, ⟨300, 160, 350, 170⟩] -
          specMinX ⟨100, 100, 150, 110⟩
          [⟨300, 100, 350, 110⟩,
           ⟨100, 120, 150, 130⟩, ⟨300, 120, 350, 130⟩,
           ⟨100, 140, 150, 150⟩, ⟨300, 140, 350, 150⟩,
           ⟨100, 160, 150, 170⟩, ⟨300, 160, 350, 170⟩]) * 2),
        truncQ ((specMaxY ⟨100, 100, 150, 110⟩
          [⟨300, 100, 350, 110⟩,
           ⟨100, 120, 150, 130⟩, ⟨300, 120, 350, 130⟩,
           ⟨100, 140, 150, 150⟩, ⟨300, 140, 350, 150⟩,
           ⟨100, 160, 150, 170⟩, ⟨300, 160, 350, 170⟩] -
          specMinY ⟨100, 100, 150, 110⟩
          [⟨300, 100, 350, 110⟩,
           ⟨100, 120, 150, 130⟩, ⟨300, 120, 350, 130⟩,
           ⟨100, 140, 150, 150⟩, ⟨300, 140, 350, 150⟩,
           ⟨100, 160, 150, 170⟩, ⟨300, 160, 350, 170⟩]) * 2)⟩] :=
  claim_C5.1 _ _ 2 (by norm_num) (by norm_num) (by norm_num) (by norm_num)
    (by norm_num)
    (by norm_num [validColumns, buildColumns, placeBlock, List.foldl, List.filter])

/-- C6.  A candidate region (with positive dimensions) is excluded as
table-overlapping iff its intersection with some table rectangle strictly
exceeds 30 % of the region's own area; at exactly 30 % it is NOT excluded,
at 31 % it is. -/
theorem claim_C6 :
    (∀ (region : CvRect) (tables : List CvRect), 0 < region.w → 0 < region.h →
      (isRegionOverlappingTable region tables = true ↔
        ∃ tr ∈ tables,
          3 * rectArea region < 10 * rectArea (rectInter region tr))) ∧
    isRegionOverlappingTable ⟨0, 0, 100, 100⟩ [⟨0, 0, 30, 100⟩] = false ∧
    isRegionOverlappingTable ⟨0, 0, 100, 100⟩ [⟨0, 0, 31, 100⟩] = true := by
  refine ⟨?_, ?_, ?_⟩
  · intro region tables hw hh
    have hra : 0 < rectArea region := mul_pos hw hh
    have hraQ : (0 : ℚ) < (rectArea region : ℚ) := by exact_mod_cast hra
    rw [isRegionOverlappingTable, List.any_eq_true]
    constructor
    · rintro ⟨tr, htr, hpred⟩
      rw [Bool.and_eq_true, decide_eq_true_eq, decide_eq_true_eq] at hpred
      obtain ⟨_, hratio⟩ := hpred
      refine ⟨tr, htr, ?_⟩
      rw [div_lt_div_iff (by norm_num) hraQ] at hratio
      have : (3 : ℚ) * (rectArea region : ℚ) <
          10 * (rectArea (rectInter region tr) : ℚ) := by linarith
      exact_mod_cast this
    · rintro ⟨tr, htr, hlt⟩
      have hpos : 0 < rectArea (rectInter region tr) := by linarith
      refine ⟨tr, htr, ?_⟩
      rw [Bool.and_eq_true, decide_eq_true_eq, decide_eq_true_eq]
      refine ⟨hpos, ?_⟩
      rw [div_lt_div_iff (by norm_num) hraQ]
      have : (3 : ℚ) * (rectArea region : ℚ) <
          10 * (rectArea (rectInter region tr) : ℚ) := by exact_mod_cast hlt
      linarith
  · norm_num [isRegionOverlappingTable, rectInter, rectArea]
  · norm_num [isRegionOverlappingTable, rectInter, rectArea]

/-- C6 witness: the 31 % boundary instance through the iff. -/
theorem claim_C6_witness :
    (0 : ℤ) < 100 ∧
    (isRegionOverlappingTable ⟨0, 0, 100, 100⟩ [⟨0, 0, 31, 100⟩] = true ↔
      ∃ tr ∈ [(⟨0, 0, 31, 100⟩ : CvRect)],
        3 * rectArea ⟨0, 0, 100, 100⟩ <
          10 * rectArea (rectInter ⟨0, 0, 100, 100⟩ tr)) :=
  ⟨by decide, claim_C6.1 _ _ (by decide) (by decide)⟩

/-! ## Instrumented classifier (claim C9)

Copies of the cascade functions in which every `back()`/`front()` access is
`Option`-guarded: they return `none` exactly when the C++ code would read a
character of an empty string (out of bounds).  Accesses are placed where
the C++ evaluation order performs them: a later check's access is only
reached when the earlier checks fell through. -/

def backChar? (t : List Char) : Option Char := t.getLast?

def frontChar? (t : List Char) : Option Char := t.head?

def isLikelyBodyTextSafe (t : List Char) : Option Bool :=
  if byteLen t > 200 ∨ wordCount t > 25 then some true
  else
    (backChar? t).bind fun b =>
      if b = '.' ∧ byteLen t > 50 then some true
      else if countChar '.' t + countChar '!' t + countChar '?' t > 1 then some true
      else if bodyPrefixCheck (toLowerStr t) ∧ wordCount t > 8 then some true
      else some false

def matchesH4PatternsSafe (t : List Char) : Option Bool :=
  if h4Date t then some true
  else
    (frontChar? t).bind fun f =>
      some ((f = '-' || f = '*') && decide (byteLen t < 50))

def matchesH3PatternsSafe (t : List Char) : Option Bool :=
  if h3ListMarker t then some true
  else
    (backChar? t).bind fun b =>
      some (b = ':' && decide (byteLen t > 5) && decide (byteLen t < 60))

def classifyByPatternsSafe (t : List Char) (page : ℤ) : Option HeadingLevel :=
  if matchesH1Patterns t page then some HeadingLevel.H1
  else
    (matchesH4PatternsSafe t).bind fun m4 =>
      if m4 then some HeadingLevel.H4
      else
        (matchesH3PatternsSafe t).bind fun m3 =>
          if m3 then some HeadingLevel.H3
          else if matchesH2Patterns t then some HeadingLevel.H2
          else some HeadingLevel.UNKNOWN

def hasHeadingStructureSafe (t : List Char) : Option Bool :=
  if structuredPrefix t then some true
  else
    (backChar? t).bind fun b =>
      some ((b = ':' && decide (byteLen t > 5) && decide (byteLen t < 80)) ||
        allCapsCheck t || titleCaseCheck t)

def classifyByStructureSafe (t : List Char) (page : ℤ) : Option HeadingLevel :=
  if page = 1 ∧ byteLen t > 20 ∧ 3 ≤ wordCount t then some HeadingLevel.H1
  else if structRegex2 t then
    some (if wordCount t ≤ 6 then HeadingLevel.H1 else HeadingLevel.H2)
  else
    (backChar? t).bind fun b =>
      if b = ':' then
        some (if wordCount t ≤ 4 then HeadingLevel.H3 else HeadingLevel.H4)
      else if wordCount t ≤ 3 then some HeadingLevel.H4
      else if wordCount t ≤ 6 then some HeadingLevel.H3
      else if wordCount t ≤ 10 then some HeadingLevel.H2
      else some HeadingLevel.UNKNOWN

def determineHeadingLevelSafe (t l : List Char) (page : ℤ) : Option HeadingLevel :=
  if t = [] ∨ byteLen t < 3 then some HeadingLevel.UNKNOWN
  else
    (isLikelyBodyTextSafe t).bind fun body =>
      if body then some HeadingLevel.UNKNOWN
      else if convertYoloLabelToHeadingLevel l ≠ HeadingLevel.UNKNOWN ∧
          validateHeadingCandidate t (convertYoloLabelToHeadingLevel l) = true then
        some (convertYoloLabelToHeadingLevel l)
      else
        (classifyByPatternsSafe t page).bind fun pl =>
          if pl ≠ HeadingLevel.UNKNOWN ∧ validateHeadingCandidate t pl = true then
            some pl
          else if l = "text".data then
            (hasHeadingStructureSafe t).bind fun hs =>
              if hs then
                (classifyByStructureSafe t page).bind fun sl =>
                  if sl ≠ HeadingLevel.UNKNOWN then some sl
                  else some HeadingLevel.UNKNOWN
              else some HeadingLevel.UNKNOWN
          else some HeadingLevel.UNKNOWN

theorem backChar?_eq {t : List Char} (h : t ≠ []) :
    backChar? t = some (backCharD t) := by
  obtain ⟨x, hx⟩ := Option.isSome_iff_exists.mp (List.getLast?_isSome.mpr h)
  rw [backChar?, hx, backCharD, List.getLastD_eq_getLast?, hx, Option.getD_some]

theorem frontChar?_eq {t : List Char} (h : t ≠ []) :
    frontChar? t = some (frontCharD t) := by
  cases t with
  | nil => exact absurd rfl h
  | cons c cs => rfl

theorem isLikelyBodyTextSafe_eq {t : List Char} (h : t ≠ []) :
    isLikelyBodyTextSafe t = some (isLikelyBodyText t) := by
  rw [isLikelyBodyTextSafe, isLikelyBodyText, backChar?_eq h, Option.some_bind]
  split_ifs <;> rfl

theorem matchesH4PatternsSafe_eq {t : List Char} (h : t ≠ []) :
    matchesH4PatternsSafe t = some (matchesH4Patterns t) := by
  rw [matchesH4PatternsSafe, matchesH4Patterns, frontChar?_eq h, Option.some_bind]
  by_cases hd : h4Date t
  · simp [hd]
  · simp [hd, h4Bullet]

theorem matchesH3PatternsSafe_eq {t : List Char} (h : t ≠ []) :
    matchesH3PatternsSafe t = some (matchesH3Patterns t) := by
  rw [matchesH3PatternsSafe, matchesH3Patterns, backChar?_eq h, Option.some_bind]
  by_cases hd : h3ListMarker t
  · simp [hd]
  · simp [hd, h3Colon]

theorem classifyByPatternsSafe_eq {t : List Char} {page : ℤ} (h : t ≠ []) :
    classifyByPatternsSafe t page = some (classifyByPatterns t page) := by
  rw [classifyByPatternsSafe, classifyByPatterns, matchesH4PatternsSafe_eq h,
    matchesH3PatternsSafe_eq h]
  split_ifs <;> simp_all

theorem hasHeadingStructureSafe_eq {t : List Char} (h : t ≠ []) :
    hasHeadingStructureSafe t = some (hasHeadingStructure t) := by
  rw [hasHeadingStructureSafe, hasHeadingStructure, backChar?_eq h, Option.some_bind]
  by_cases hs : structuredPrefix t
  · simp [hs]
  · simp [hs]

theorem classifyByStructureSafe_eq {t : List Char} {page : ℤ} (h : t ≠ []) :
    classifyByStructureSafe t page = some (classifyByStructure t page) := by
  rw [classifyByStructureSafe, classifyByStructure, backChar?_eq h, Option.some_bind]
  split_ifs <;> rfl

/-- C9.  The instrumented cascade never returns `none`: the initial
guard (length < 3 rejects, in particular every empty or 1–2 byte string)
ensures every subsequent back()/front() access happens on a non-empty
string, and the instrumented run agrees with the plain model everywhere. -/
theorem claim_C9 (t l : List Char) (page : ℤ) :
    determineHeadingLevelSafe t l page = some (determineHeadingLevel t l page) := by
  by_cases hg : t = [] ∨ byteLen t < 3
  · rw [determineHeadingLevelSafe, if_pos hg, determineHeadingLevel, if_pos hg]
  · have hne : t ≠ [] := by
      intro he
      exact hg (Or.inl he)
    rw [determineHeadingLevelSafe, if_neg hg, isLikelyBodyTextSafe_eq hne,
      Option.some_bind, determineHeadingLevel, if_neg hg]
    by_cases hb : isLikelyBodyText t
    · rw [if_pos hb, if_pos hb]
    · rw [if_neg hb, if_neg hb]
      by_cases h1 : convertYoloLabelToHeadingLevel l ≠ HeadingLevel.UNKNOWN ∧
          validateHeadingCandidate t (convertYoloLabelToHeadingLevel l) = true
      · rw [if_pos h1, if_pos h1]
      · rw [if_neg h1, if_neg h1, classifyByPatternsSafe_eq hne, Option.some_bind]
        by_cases h2 : classifyByPatterns t page ≠ HeadingLevel.UNKNOWN ∧
            validateHeadingCandidate t (classifyByPatterns t page) = true
        · rw [if_pos h2, if_pos h2]
        · rw [if_neg h2, if_neg h2]
          by_cases hl : l = "text".data
          · rw [if_pos hl, hasHeadingStructureSafe_eq hne, Option.some_bind]
            by_cases hhs : hasHeadingStructure t = true
            · rw [if_pos hhs, if_pos ⟨hl, hhs⟩, classifyByStructureSafe_eq hne,
                Option.some_bind]
              by_cases hsl : classifyByStructure t page ≠ HeadingLevel.UNKNOWN
              · rw [if_pos hsl, if_pos hsl]
              · rw [if_neg hsl, if_neg hsl]
            · rw [if_neg hhs, if_neg (fun hc => hhs hc.2)]
          · rw [if_neg hl, if_neg (fun hc => hl hc.1)]

/-- If the best-class fold ends at or above `θ`, either the initial value
was, or some visited class score is. -/
theorem bestStep_fold_ge {σ : ℚ → ℚ} {data : ℕ → ℚ} {D i : ℕ} {θ : ℚ} :
    ∀ (cs : List ℕ) (p : ℚ × ℤ), θ ≤ (cs.foldl (bestStep σ data D i) p).1 →
      θ ≤ p.1 ∨ ∃ c ∈ cs, θ ≤ condConf σ (attrAt data D (4 + c) i) := by
  intro cs
  induction cs with
  | nil => intro p h; exact Or.inl h
  | cons c cs ih =>
    intro p h
    rw [List.foldl_cons] at h
    rcases ih _ h with h' | ⟨c', hc', hle⟩
    · by_cases hlt : p.1 < condConf σ (attrAt data D (4 + c) i)
      · rw [bestStep, if_pos hlt] at h'
        exact Or.inr ⟨c, List.mem_cons_self _ _, h'⟩
      · rw [bestStep, if_neg hlt] at h'
        exact Or.inl h'
    · exact Or.inr ⟨c', List.mem_cons_of_mem _ hc', hle⟩

/-- C2.  With a positive confidence threshold, every box the decoder emits
(post-NMS) stems from a detection index whose best per-class score — the
logistic is applied to a raw score iff it exceeds 1.0 — reaches the
threshold, and its corner coordinates are exactly the linearly scaled
center-form values of that detection. -/
theorem claim_C2 (σ : ℚ → ℚ) (data : ℕ → ℚ) (D : ℕ) (sx sy θ tnms : ℚ)
    (hθ : 0 < θ) :
    ∀ b ∈ postprocessYolo11 σ data D sx sy θ tnms,
      ∃ i, i < D ∧
        (∃ c, c < numClasses ∧ θ ≤ condConf σ (attrAt data D (4 + c) i)) ∧
        b.x1 = (attrAt data D 0 i - attrAt data D 2 i / 2) * sx ∧
        b.y1 = (attrAt data D 1 i - attrAt data D 3 i / 2) * sy ∧
        b.x2 = (attrAt data D 0 i + attrAt data D 2 i / 2) * sx ∧
        b.y2 = (attrAt data D 1 i + attrAt data D 3 i / 2) * sy ∧
        b.confidence = (bestPair σ data D i).1 := by
  intro b hb
  rw [postprocessYolo11] at hb
  obtain ⟨idx, hidx, rfl⟩ := List.mem_map.mp hb
  have hkeep := (mem_nmsLoop hidx).1
  have hlen : idx < (decodeBoxes σ data D sx sy θ).length := mem_sortIdx.mp hkeep
  have hmem : boxAt (decodeBoxes σ data D sx sy θ) idx ∈ decodeBoxes σ data D sx sy θ := by
    rw [boxAt, List.getD_eq_get _ _ hlen]
    exact List.get_mem _ _ hlen
  obtain ⟨i, hi, hsome⟩ := List.mem_filterMap.mp hmem
  rw [List.mem_range] at hi
  by_cases hcase : (bestPair σ data D i).1 < θ
  · rw [if_pos hcase] at hsome
    exact absurd hsome (by simp)
  · rw [if_neg hcase] at hsome
    push_neg at hcase
    rcases bestStep_fold_ge (List.range numClasses) (0, -1) hcase with h0 | ⟨c, hc, hcs⟩
    · exact absurd (lt_of_lt_of_le hθ h0) (lt_irrefl 0)
    · refine ⟨i, hi, ⟨c, List.mem_range.mp hc, hcs⟩, ?_⟩
      rw [← Option.some.inj hsome]
      simp [decodeBox]

set_option maxRecDepth 4000 in
/-- C3, counterexample.  A 21-word all-caps page-1 text with label "text"
reaches the structural fallback (its H1 pattern match fails H1 validation,
21 words > 20) and the fallback returns H1 WITHOUT applying the validation
envelope, which the text violates. -/
theorem claim_C3_counterexample :
    determineHeadingLevel "A B C D E F G H I J K L M N O P Q R S T U".data
      "text".data 1 = HeadingLevel.H1 ∧
    validateHeadingCandidate "A B C D E F G H I J K L M N O P Q R S T U".data
      HeadingLevel.H1 = false :=
  ⟨by decide, by decide⟩

/-- C3, amended.  A non-UNKNOWN result of determine_heading_level either
passes the level's validation envelope (this covers the layout-label stage
and the pattern stage) or was produced by the structural fallback stage
(label exactly "text", heading-like structure), which does not apply the
envelope. -/
theorem claim_C3 (t l : List Char) (p : ℤ)
    (hne : determineHeadingLevel t l p ≠ HeadingLevel.UNKNOWN) :
    validateHeadingCandidate t (determineHeadingLevel t l p) = true ∨
    (l = "text".data ∧ hasHeadingStructure t = true ∧
      determineHeadingLevel t l p = classifyByStructure t p) := by
  unfold determineHeadingLevel at hne ⊢
  split_ifs at hne ⊢ with h1 h2 h3 h4 h5 h6
  · exact absurd rfl hne
  · exact absurd rfl hne
  · exact Or.inl h3.2
  · exact Or.inl h4.2
  · exact Or.inr ⟨h5.1, h5.2, rfl⟩
  · exact absurd rfl hne
  · exact absurd rfl hne

/-- C3 witness: "2.1 Background" with label "text" on page 2 is accepted
(stage 1: label text → H2, which validates). -/
theorem claim_C3_witness :
    determineHeadingLevel "2.1 Background".data "text".data 2 ≠ HeadingLevel.UNKNOWN ∧
    (validateHeadingCandidate "2.1 Background".data
        (determineHeadingLevel "2.1 Background".data "text".data 2) = true ∨
      ("text".data = "text".data ∧
        hasHeadingStructure "2.1 Background".data = true ∧
        determineHeadingLevel "2.1 Background".data "text".data 2 =
          classifyByStructure "2.1 Background".data 2)) :=
  ⟨by decide, claim_C3 _ _ _ (by decide)⟩

/-- Labels outside {title, text, list}: the layout-label stage yields
UNKNOWN. -/
theorem convertLabel_otherwise_unknown (l : List Char)
    (h1 : l ≠ "title".data) (h2 : l ≠ "text".data) (h3 : l ≠ "list".data) :
    convertYoloLabelToHeadingLevel l = HeadingLevel.UNKNOWN := by
  rw [convertYoloLabelToHeadingLevel, if_neg h1, if_neg h2, if_neg h3]
  split_ifs <;> rfl

/-- For such labels a non-UNKNOWN cascade result can only come from the
validated pattern stage (the structural stage needs label "text"). -/
theorem determine_other_label (t l : List Char) (p : ℤ)
    (h1 : l ≠ "title".data) (h2 : l ≠ "text".data) (h3 : l ≠ "list".data)
    (hne : determineHeadingLevel t l p ≠ HeadingLevel.UNKNOWN) :
    determineHeadingLevel t l p = classifyByPatterns t p ∧
    validateHeadingCandidate t (classifyByPatterns t p) = true := by
  have hconv := convertLabel_otherwise_unknown l h1 h2 h3
  unfold determineHeadingLevel at hne ⊢
  split_ifs at hne ⊢ with g1 g2 g3 g4 g5 g6
  · exact absurd rfl hne
  · exact absurd rfl hne
  · exact absurd hconv g3.1
  · exact ⟨rfl, g4.2⟩
  · exact absurd g5.1 h2
  · exact absurd g5.1 h2
  · exact absurd rfl hne

/-- C10.  Every layout label outside {"title", "text", "list"} — including
"paragraph_title", the label of the fallback layout's synthetic
section-header bands — maps to UNKNOWN in the layout-label stage, so a
region with such a label is only accepted through the (validated) pattern
stage; the structural fallback never fires for it.  The fallback layout
consists of one "title" band and three "paragraph_title" bands. -/
theorem claim_C10 :
    (∀ l : List Char, l ≠ "title".data → l ≠ "text".data → l ≠ "list".data →
      convertYoloLabelToHeadingLevel l = HeadingLevel.UNKNOWN) ∧
    (∀ (t l : List Char) (p : ℤ),
      l ≠ "title".data → l ≠ "text".data → l ≠ "list".data →
      determineHeadingLevel t l p ≠ HeadingLevel.UNKNOWN →
      determineHeadingLevel t l p = classifyByPatterns t p ∧
      validateHeadingCandidate t (classifyByPatterns t p) = true) ∧
    (∀ w h : ℚ, (createFallbackLayout w h).map (fun b => b.label) =
      ["title".data, "paragraph_title".data, "paragraph_title".data,
       "paragraph_title".data]) := by
  refine ⟨convertLabel_otherwise_unknown, determine_other_label, ?_⟩
  intro w h
  norm_num [createFallbackLayout, List.filterMap]

/-- C10 witness: the fallback label "paragraph_title", and the text
"2.1 Background" under it, accepted as H2 by the pattern stage. -/
theorem claim_C10_witness :
    convertYoloLabelToHeadingLevel "paragraph_title".data = HeadingLevel.UNKNOWN ∧
    (determineHeadingLevel "2.1 Background".data "paragraph_title".data 2 =
        classifyByPatterns "2.1 Background".data 2 ∧
      validateHeadingCandidate "2.1 Background".data
        (classifyByPatterns "2.1 Background".data 2) = true) :=
  ⟨claim_C10.1 _ (by decide) (by decide) (by decide),
   claim_C10.2.1 _ _ 2 (by decide) (by decide) (by decide) (by decide)⟩

/-- C4, counterexample.  The literal-substitution pass does NOT map
"rnatch this vvork" to "match this work" — the late rule tc→to corrupts
the "match" produced by the early rules rn→m / vv→w — and the pass is NOT
idempotent: a second application changes its own output again
(the o→0 rule hits the fresh "o" of "matoh"). -/
theorem claim_C4_counterexample :
    applyBasicFixes "rnatch this vvork".data ≠ "match this work".data ∧
    applyBasicFixes (applyBasicFixes "rnatch this vvork".data) ≠
      applyBasicFixes "rnatch this vvork".data := by
  rw [applyBasicFixes_rnatch]
  rw [applyBasicFixes_matoh]
  exact ⟨by decide, by decide⟩

/-- C4, amended.  The literal-substitution pass of the text corrector
(non-aggressive mode, built-in rules applied in the order the source lists
them) maps "rnatch this vvork" to "matoh this work" (a second application
yields "mat0h this work", so the pass is not idempotent), and for every
input the result is whitespace-normal: no leading or trailing whitespace,
no two adjacent whitespace bytes, and every whitespace byte a single
space. -/
theorem claim_C4 :
    (∀ s : List Char, wsClean (applyBasicFixes s)) ∧
    applyBasicFixes "rnatch this vvork".data = "matoh this work".data ∧
    applyBasicFixes (applyBasicFixes "rnatch this vvork".data) =
      "mat0h this work".data := by
  refine ⟨fun s => wsClean_trimmed (runRules basicFixes s), applyBasicFixes_rnatch, ?_⟩
  rw [applyBasicFixes_rnatch, applyBasicFixes_matoh]

theorem correctText_execSummary :
    correctText "Executive Summary".data = "Execuhve 5ummary".data := by
  rw [correctText, if_neg (by decide), applyBasicFixes_execSummary]

/-- With label "title" the cascade accepts "Execuhve 5ummary" as H1 on any
page (stage 1: title → H1, which validates at 16 bytes / 2 words). -/
theorem determine_execuhve (page : ℤ) :
    determineHeadingLevel "Execuhve 5ummary".data "title".data page =
      HeadingLevel.H1 := by
  have h1 : ¬("Execuhve 5ummary".data = [] ∨ byteLen "Execuhve 5ummary".data < 3) := by
    decide
  have h2 : ¬(isLikelyBodyText "Execuhve 5ummary".data = true) := by decide
  have h3 : convertYoloLabelToHeadingLevel "title".data ≠ HeadingLevel.UNKNOWN ∧
      validateHeadingCandidate "Execuhve 5ummary".data
        (convertYoloLabelToHeadingLevel "title".data) = true := by decide
  rw [determineHeadingLevel, if_neg h1, if_neg h2, if_pos h3]
  decide

/-- The OCR oracle of the C8 scenario: the clipped title band reads
"Executive Summary", everything else reads empty. -/
def c8ocr : CvRect → List Char :=
  fun r => if r = ⟨10, 10, 500, 50⟩ then "Executive Summary".data else []

set_option maxRecDepth 8000 in
theorem pageStep_c8_title (page : ℤ) (tr : PageTrace) :
    pageStep c8ocr [] 1000 1000 page tr ⟨10, 10, 510, 60, 95/100, 10, "title".data⟩ =
      ⟨tr.headings ++
        [⟨"H1".data, "Execuhve 5ummary".data, page, ⟨10, 10, 500, 50⟩, 95/100⟩],
       tr.ocrCalls ++ [⟨10, 10, 500, 50⟩],
       tr.classifyCalls ++ [("Execuhve 5ummary".data, "title".data)]⟩ := by
  have hb : bboxToRect ⟨10, 10, 510, 60, 95/100, 10, "title".data⟩ = ⟨10, 10, 500, 50⟩ := by
    rw [bboxToRect]
    norm_num [truncQ]
  rw [pageStep, hb]
  simp only [show isRegionOverlappingTable ⟨10, 10, 500, 50⟩ [] = false from by
      simp [isRegionOverlappingTable],
    show clipRect ⟨10, 10, 500, 50⟩ 1000 1000 = ⟨10, 10, 500, 50⟩ from by decide,
    show c8ocr ⟨10, 10, 500, 50⟩ = "Executive Summary".data from by decide,
    show ("title".data = "title".data ∨ "title".data = "paragraph_title".data ∨
      "title".data = "text".data) from Or.inl rfl,
    show ¬((500 : ℤ) ≤ 0 ∨ (50 : ℤ) ≤ 0) from by decide,
    show ("Executive Summary".data ≠ [] ∧ 2 < byteLen "Executive Summary".data) from
      by decide,
    Bool.false_eq_true, if_false, if_true, ite_true, ite_false]
  rw [show correctText ['E', 'x', 'e', 'c', 'u', 't', 'i', 'v', 'e', ' ',
      'S', 'u', 'm', 'm', 'a', 'r', 'y'] = "Execuhve 5ummary".data from
    correctText_execSummary]
  rw [show determineHeadingLevel "Execuhve 5ummary".data ['t', 'i', 't', 'l', 'e']
      page = HeadingLevel.H1 from determine_execuhve page]
  simp [levelString]

theorem pageStep_c8_table (page : ℤ) (tr : PageTrace) :
    pageStep c8ocr [] 1000 1000 page tr
      ⟨100, 500, 900, 900, 9/10, 8, "table".data⟩ = tr := by
  rw [pageStep]
  simp only [show isRegionOverlappingTable
      (bboxToRect ⟨100, 500, 900, 900, 9/10, 8, "table".data⟩) [] = false from by
      simp [isRegionOverlappingTable],
    show ¬("table".data = "title".data ∨ "table".data = "paragraph_title".data ∨
      "table".data = "text".data) from by decide,
    Bool.false_eq_true, if_false, ite_false]

/-- C8, amended.  For a page whose layout is one "title" region whose RAW
OCR text is "Executive Summary" plus one "table" region, the per-page
pipeline emits exactly one heading record, with level H1 (its text is the
CORRECTED form, "Execuhve 5ummary" — the corrector mangles the phrase, see
the counterexample), the table region is never handed to OCR, and only the
title region's text ever reaches the classifier. -/
theorem claim_C8 (page : ℤ) :
    processSinglePageAI c8ocr []
        [⟨10, 10, 510, 60, 95/100, 10, "title".data⟩,
         ⟨100, 500, 900, 900, 9/10, 8, "table".data⟩] 1000 1000 page =
      ⟨[⟨"H1".data, "Execuhve 5ummary".data, page, ⟨10, 10, 500, 50⟩, 95/100⟩],
       [⟨10, 10, 500, 50⟩],
       [("Execuhve 5ummary".data, "title".data)]⟩ := by
  rw [processSinglePageAI, List.foldl_cons, pageStep_c8_title, List.foldl_cons,
    pageStep_c8_table, List.foldl_nil]
  simp

/-- C8, counterexample to the scenario as stated: the claimed corrected
text "Executive Summary" is 17 bytes long, not 18, and it is not a fixed
point of the text corrector (title→h and S→5 rules fire on it), so the
pipeline can never classify a region whose CORRECTED text is that string. -/
theorem claim_C8_counterexample :
    byteLen "Executive Summary".data = 17 ∧ (17 : ℕ) ≠ 18 ∧
    correctText "Executive Summary".data ≠ "Executive Summary".data := by
  refine ⟨by decide, by decide, ?_⟩
  rw [correctText_execSummary]
  decide

/-- C1 witness: a single unit box at threshold 0. -/
theorem claim_C1_witness :
    (0 : ℚ) ≤ 0 ∧
    ((∀ i j, i < ([⟨0, 0, 1, 1, 1, 0, []⟩] : List BBoxD).length →
        j < ([⟨0, 0, 1, 1, 1, 0, []⟩] : List BBoxD).length → i ≠ j →
        (0 : ℚ) < iouVal (boxAt [⟨0, 0, 1, 1, 1, 0, []⟩] i)
          (boxAt [⟨0, 0, 1, 1, 1, 0, []⟩] j) →
        ¬(i ∈ nms [⟨0, 0, 1, 1, 1, 0, []⟩] 0 ∧ j ∈ nms [⟨0, 0, 1, 1, 1, 0, []⟩] 0)) ∧
      (∀ j, j < ([⟨0, 0, 1, 1, 1, 0, []⟩] : List BBoxD).length →
        j ∉ nms [⟨0, 0, 1, 1, 1, 0, []⟩] 0 →
        ∃ i ∈ nms [⟨0, 0, 1, 1, 1, 0, []⟩] 0,
          (0 : ℚ) < iouVal (boxAt [⟨0, 0, 1, 1, 1, 0, []⟩] i)
            (boxAt [⟨0, 0, 1, 1, 1, 0, []⟩] j) ∧
          (boxAt [⟨0, 0, 1, 1, 1, 0, []⟩] j).confidence ≤
            (boxAt [⟨0, 0, 1, 1, 1, 0, []⟩] i).confidence) ∧
      ((∀ i j, i < ([⟨0, 0, 1, 1, 1, 0, []⟩] : List BBoxD).length →
          j < ([⟨0, 0, 1, 1, 1, 0, []⟩] : List BBoxD).length → i ≠ j →
          iouVal (boxAt [⟨0, 0, 1, 1, 1, 0, []⟩] i)
            (boxAt [⟨0, 0, 1, 1, 1, 0, []⟩] j) = 0) →
        ∀ i, i < ([⟨0, 0, 1, 1, 1, 0, []⟩] : List BBoxD).length →
          i ∈ nms [⟨0, 0, 1, 1, 1, 0, []⟩] 0)) :=
  ⟨le_refl 0, claim_C1 [⟨0, 0, 1, 1, 1, 0, []⟩] 0 (le_refl 0)⟩

/-- The one-detection raw tensor of the C2 witness (D = 1, layout
`[attribute][detection]`, so index k is attribute k of detection 0). -/
def c2data : ℕ → ℚ := fun k =>
  if k = 0 then 10 else if k = 1 then 20 else if k = 2 then 4
  else if k = 3 then 6 else if k = 4 then 2 else 0

set_option maxRecDepth 8000 in
/-- C2 witness: one detection with raw class-0 score 2 (so the logistic
branch applies), σ the constant-1 function, threshold 1, scales 2 and 3. -/
theorem claim_C2_witness :
    (0 : ℚ) < 1 ∧
    ∃ i, i < 1 ∧
      (∃ c, c < numClasses ∧
        (1 : ℚ) ≤ condConf (fun _ => 1) (attrAt c2data 1 (4 + c) i)) ∧
      (⟨16, 51, 24, 69, 1, 0, "caption".data⟩ : BBoxD).x1 =
        (attrAt c2data 1 0 i - attrAt c2data 1 2 i / 2) * 2 ∧
      (⟨16, 51, 24, 69, 1, 0, "caption".data⟩ : BBoxD).y1 =
        (attrAt c2data 1 1 i - attrAt c2data 1 3 i / 2) * 3 ∧
      (⟨16, 51, 24, 69, 1, 0, "caption".data⟩ : BBoxD).x2 =
        (attrAt c2data 1 0 i + attrAt c2data 1 2 i / 2) * 2 ∧
      (⟨16, 51, 24, 69, 1, 0, "caption".data⟩ : BBoxD).y2 =
        (attrAt c2data 1 1 i + attrAt c2data 1 3 i / 2) * 3 ∧
      (⟨16, 51, 24, 69, 1, 0, "caption".data⟩ : BBoxD).confidence =
        (bestPair (fun _ => 1) c2data 1 i).1 := by
  refine ⟨by norm_num, ?_⟩
  have hpost : postprocessYolo11 (fun _ => 1) c2data 1 2 3 1 0 =
      [⟨16, 51, 24, 69, 1, 0, "caption".data⟩] := by
    norm_num [postprocessYolo11, decodeBoxes, decodeBox, bestPair, bestStep,
      condConf, attrAt, c2data, numClasses, nms, sortIdx, nmsLoop, boxAt,
      List.insertionSort, List.orderedInsert, List.filterMap,
      mapDoclayoutToClass, List.range_succ]
  exact claim_C2 (fun _ => 1) c2data 1 2 3 1 0 (by norm_num) _
    (by rw [hpost]; exact List.mem_singleton.mpr rfl)

end Adobe1a
